import Mathlib

/-!
# Student controller of the placement-cell portal

A shallow embedding of `backend/src/api/student/controllers/student.js`
(`submit_for_approval`, `modify_multiple`, the status queries,
`set_placed_status`) together with
the part of the JavaScript value semantics that the controller relies on
(truthiness, `typeof`, `isNaN`, `==` against a string, property reads and
writes on plain objects).

Finite numbers are kept as exact rationals. Where the code compares a number
with a string, the runtime rounds the value of the string to an IEEE double;
that rounding is a parameter, `toDouble`, what is proved holds for every
rounding, and the sample requests take `JsNum.ieeeDouble` for it.
-/

namespace TnpCell

/-! ## JavaScript values -/

/-- A JavaScript number: `NaN`, an infinity, or a finite value. -/
inductive JsNum where
  | nan
  | inf (negative : Bool)
  | fin (q : ℚ)
  deriving DecidableEq

/-- A JavaScript value. An object (plain object or array) is given by its own
enumerable properties, in enumeration order, and by the string its conversion
to a primitive yields (`"[object Object]"` for a plain object, the
comma-joined elements for an array). -/
inductive JsVal where
  | undefined
  | null
  | bool (b : Bool)
  | num (n : JsNum)
  | str (s : String)
  | obj (props : List (String × JsVal)) (toPrimitive : String)

/-- An object with string keys: the list of its properties in insertion order. -/
abbrev Obj (α : Type) := List (String × α)

/-- Property read `o[k]`, `none` when `k` is not a property of `o`. -/
def Obj.get {α : Type} : Obj α → String → Option α
  | [], _ => none
  | (k', v) :: rest, k => if k' = k then some v else Obj.get rest k

/-- Property write `o[k] = v`: an existing property keeps its place, a new one
goes last. -/
def Obj.set {α : Type} : Obj α → String → α → Obj α
  | [], k, v => [(k, v)]
  | (k', v') :: rest, k, v =>
    if k' = k then (k', v) :: rest else (k', v') :: Obj.set rest k v

/-- The keys `Object.keys(o)`, which `for (const k in o)` walks through. -/
def Obj.keys {α : Type} (o : Obj α) : List String := o.map Prod.fst

/-- The object spread `{...a, ...b}`. -/
def Obj.spread {α : Type} (a b : Obj α) : Obj α :=
  b.foldl (fun acc kv => Obj.set acc kv.1 kv.2) a

/-- A property write that happens only when there is a value to write. -/
def Obj.write {α : Type} (o : Obj α) (k : String) : Option α → Obj α
  | some v => Obj.set o k v
  | none => o

/-- The object of a JavaScript value used as a record: plain JSON objects. -/
abbrev JsObj := Obj JsVal

namespace JsNum

/-- Whether the number is `NaN`. -/
def isNaN : JsNum → Bool
  | nan => true
  | _ => false

/-- The comparison `a == b` of two numbers: `NaN` equals nothing. -/
def eq : JsNum → JsNum → Bool
  | nan, _ => false
  | _, nan => false
  | a, b => decide (a = b)

/-- The negation `-a`. -/
def neg : JsNum → JsNum
  | nan => nan
  | inf b => inf (!b)
  | fin q => fin (-q)

/-- The number that the runtime holds for an exact value: `toDouble` gives the
nearest IEEE double of a finite value, an infinity when the value is out of
range. -/
def round (toDouble : ℚ → JsNum) : JsNum → JsNum
  | fin q => toDouble q
  | n => n

/-- The rounding of an exact value to the nearest IEEE double (binary64), ties
to the even mantissa: the mantissa has 53 bits, the unit in the last place is
no smaller than `2^-1074`, and a result of `2^1024` or more is an infinity. -/
def ieeeDouble (q : ℚ) : JsNum :=
  if q = 0 then fin 0
  else
    let a : ℚ := if q < 0 then -q else q
    let e₀ : Int := (Nat.log2 a.num.natAbs : Int) - (Nat.log2 a.den : Int)
    let e : Int := if (2 : ℚ) ^ e₀ ≤ a then e₀ else e₀ - 1
    let u : Int := max (e - 52) (-1074)
    let scaled : ℚ := a / (2 : ℚ) ^ u
    let lower : Int := Rat.floor scaled
    let rest : ℚ := scaled - lower
    let m : Int :=
      if rest < 1 / 2 then lower
      else if 1 / 2 < rest then lower + 1
      else if lower % 2 = 0 then lower else lower + 1
    let v : ℚ := m * (2 : ℚ) ^ u
    if (2 : ℚ) ^ (1024 : Int) ≤ v then inf (decide (q < 0))
    else fin (if q < 0 then -v else v)

end JsNum

/-! ### String to number -/

/-- White space and line terminators that `Number(string)` trims. -/
def isStrWhiteSpaceChar (c : Char) : Bool :=
  let n := c.toNat
  n == 0x09 || n == 0x0A || n == 0x0B || n == 0x0C || n == 0x0D || n == 0x20
    || n == 0xA0 || n == 0x1680 || (0x2000 ≤ n && n ≤ 0x200A) || n == 0x2028
    || n == 0x2029 || n == 0x202F || n == 0x205F || n == 0x3000 || n == 0xFEFF

/-- The value of a digit character in bases up to sixteen. -/
def digitValue (c : Char) : Option Nat :=
  if '0' ≤ c ∧ c ≤ '9' then some (c.toNat - '0'.toNat)
  else if 'a' ≤ c ∧ c ≤ 'f' then some (c.toNat - 'a'.toNat + 10)
  else if 'A' ≤ c ∧ c ≤ 'F' then some (c.toNat - 'A'.toNat + 10)
  else none

/-- Reads digits of the given base after the accumulated value `acc`. -/
def digitsFrom (base : Nat) (acc : Nat) : List Char → Option Nat
  | [] => some acc
  | c :: cs =>
    match digitValue c with
    | some d => if d < base then digitsFrom base (acc * base + d) cs else none
    | none => none

/-- A non-empty run of digits of the given base, as a natural number. -/
def digitsToNat (base : Nat) (cs : List Char) : Option Nat :=
  if cs.isEmpty then none else digitsFrom base 0 cs

/-- The exponent part of a decimal literal, what follows `e` or `E`. -/
def exponentValue : Option (List Char) → Option Int
  | none => some 0
  | some ('+' :: ds) => (digitsToNat 10 ds).map Int.ofNat
  | some ('-' :: ds) => (digitsToNat 10 ds).map (fun n => - Int.ofNat n)
  | some ds => (digitsToNat 10 ds).map Int.ofNat

/-- The part of a decimal literal before the exponent: `12`, `12.`, `12.5`, `.5`. -/
def mantissaValue (cs : List Char) : Option ℚ :=
  match cs.span (fun c => c != '.') with
  | (ip, []) => (digitsToNat 10 ip).map (fun n => (n : ℚ))
  | (ip, _ :: fp) =>
    if ip.isEmpty && fp.isEmpty then none
    else
      match (if ip.isEmpty then some 0 else digitsToNat 10 ip),
            (if fp.isEmpty then some 0 else digitsToNat 10 fp) with
      | some i, some f => some ((i : ℚ) + (f : ℚ) / (10 : ℚ) ^ fp.length)
      | _, _ => none

/-- An unsigned decimal literal or `Infinity`. -/
def unsignedDecimalValue (cs : List Char) : JsNum :=
  if cs = "Infinity".toList then JsNum.inf false
  else
    let parts := cs.span (fun c => c != 'e' && c != 'E')
    let expo : Option (List Char) :=
      match parts.2 with
      | [] => none
      | _ :: e => some e
    match mantissaValue parts.1, exponentValue expo with
    | some m, some e => JsNum.fin (m * (10 : ℚ) ^ e)
    | _, _ => JsNum.nan

/-- A run of digits in base 2, 8 or 16 as a number, `NaN` when malformed. -/
def nonDecimalValue (base : Nat) (ds : List Char) : JsNum :=
  match digitsToNat base ds with
  | some n => JsNum.fin (n : ℚ)
  | none => JsNum.nan

/-- The conversion `Number(s)` of a string. -/
def StringToNumber (s : String) : JsNum :=
  let cs := ((s.toList.dropWhile isStrWhiteSpaceChar).reverse.dropWhile
    isStrWhiteSpaceChar).reverse
  match cs with
  | [] => JsNum.fin 0
  | '0' :: 'x' :: ds => nonDecimalValue 16 ds
  | '0' :: 'X' :: ds => nonDecimalValue 16 ds
  | '0' :: 'o' :: ds => nonDecimalValue 8 ds
  | '0' :: 'O' :: ds => nonDecimalValue 8 ds
  | '0' :: 'b' :: ds => nonDecimalValue 2 ds
  | '0' :: 'B' :: ds => nonDecimalValue 2 ds
  | '+' :: rest => unsignedDecimalValue rest
  | '-' :: rest => (unsignedDecimalValue rest).neg
  | _ => unsignedDecimalValue cs

namespace JsVal

/-- The conversion `Number(v)`. -/
def toNumber : JsVal → JsNum
  | undefined => JsNum.nan
  | null => JsNum.fin 0
  | bool b => JsNum.fin (if b then 1 else 0)
  | num n => n
  | str s => StringToNumber s
  | obj _ p => StringToNumber p

/-- Truthiness, as tested by `if (v)`, `!v` and `v && ...`. -/
def truthy : JsVal → Bool
  | undefined => false
  | null => false
  | bool b => b
  | num JsNum.nan => false
  | num (JsNum.inf _) => true
  | num (JsNum.fin q) => decide (q ≠ 0)
  | str s => decide (s ≠ "")
  | obj _ _ => true

/-- The operator `typeof v`. -/
def typeof : JsVal → String
  | undefined => "undefined"
  | null => "object"
  | bool _ => "boolean"
  | num _ => "number"
  | str _ => "string"
  | obj _ _ => "object"

/-- The global function `isNaN(v)`: whether `Number(v)` is `NaN`. -/
def isNaN (v : JsVal) : Bool := v.toNumber.isNaN

/-- The comparison `v == s` against a string `s`. A boolean or a number is
compared with the number that the runtime reads from `s`, which is the exact
value of `s` rounded by `toDouble`; a string, and an object through its
conversion to a primitive, is compared with `s` itself. -/
def looseEqStr (v : JsVal) (toDouble : ℚ → JsNum) (s : String) : Bool :=
  match v with
  | undefined => false
  | null => false
  | bool b =>
    JsNum.eq (JsNum.fin (if b then 1 else 0)) ((StringToNumber s).round toDouble)
  | num n => JsNum.eq n ((StringToNumber s).round toDouble)
  | str t => decide (t = s)
  | obj _ p => decide (p = s)

/-- The own enumerable properties that `for (const k in v)` walks through. -/
def props : JsVal → JsObj
  | obj ps _ => ps
  | _ => []

/-- The property read `v[k]` on a value that is neither `null` nor
`undefined`, for a key that is no index, `length` or inherited member. -/
def getProp (v : JsVal) (k : String) : JsVal :=
  match Obj.get v.props k with
  | some x => x
  | none => undefined

end JsVal

/-! ## Stores and collaborators -/

/-- The authenticated user `ctx.state.user`. -/
structure User where
  id : Nat
  username : String
  deriving DecidableEq

/-- A row of the student collection, with the columns the controller reads. -/
structure Student where
  id : Nat
  roll : String
  approved : String
  placed_status : String
  internship_status_2 : Option Bool
  internship_status_6 : Option Bool
  fte_status : Option Bool
  deriving DecidableEq

/-- The settings singleton; a column that was never set reads as `null`. -/
structure Setting where
  registrations_allowed : Option Bool
  cpi_change_allowed : Option Bool
  deriving DecidableEq

/-- An uploaded file of `ctx.request.files`: its name and its content. -/
structure JsFile where
  name : String
  content : String
  deriving DecidableEq

/-- The value of `ctx.request.files[field]`: one file, or, when the form has
several parts of that name, the array of them. The array has no property
`name` until something sets one. -/
inductive Attachment where
  | one (file : JsFile)
  | many (files : List JsFile) (name : Option String)
  deriving DecidableEq

/-- The files of an attachment. -/
def Attachment.parts : Attachment → List JsFile
  | Attachment.one file => [file]
  | Attachment.many files _ => files

/-- A job posting, with the columns the status queries filter on. -/
structure Job where
  category : String
  classification : String
  deriving DecidableEq

/-- A row of the application collection with its `student` and `job`
relations populated. -/
structure Application where
  status : String
  student : Student
  job : Job
  deriving DecidableEq

/-- What a request handler sees of the outside: the student rows, the
application rows, the settings singleton (`none` when the lookup returns
nothing) and the upload service, which answers with the stored artifacts or
with nothing. -/
structure World where
  students : List Student
  applications : List Application
  setting : Option Setting
  upload : Attachment → Option (List JsVal)

/-- The lookup `findOne({ where: { roll } })` on the student collection. -/
def findStudent (students : List Student) (roll : String) : Option Student :=
  students.find? (fun s => decide (s.roll = roll))

/-- A call that a handler makes on a collaborator that changes state. -/
inductive Effect where
  /-- The query `update({ where: { id }, data: { [field]: null } })`. -/
  | detach (id : Nat) (field : String)
  /-- The upload service call made for key `key` of `files_to_upload`. -/
  | upload (key : String) (file : Attachment)
  /-- The call `entityService.update(student, id, { data })`. -/
  | update (id : Nat) (data : JsObj)
  /-- The call `this.create(ctx)` with `ctx.request.body = { data }`. -/
  | create (data : JsObj) (files : Obj Attachment)
  /-- The query `update({ where: { roll }, data })` on the student collection. -/
  | updateByRoll (roll : String) (data : JsObj)

/-- How a handler ends. -/
inductive Response where
  | badRequest (id : String)
  | internalServerError (id : String)
  | notFound (id : String)
  /-- An uncaught `TypeError`. -/
  | typeError
  /-- The response with `ctx.response.status = 204` and the given body. -/
  | noContent (body : String)
  /-- The record returned by `entityService.update(student, id, { data })`. -/
  | updated (id : Nat) (data : JsObj)
  /-- The result of `this.create(ctx)`. -/
  | created (data : JsObj) (files : Obj Attachment)
  /-- The body `{ placed_status }` of the administrative status-set request. -/
  | placedStatus (placed_status : String)

/-! ## modify_multiple -/

/-- The fields a student may change until the profile is approved or rejected. -/
def fields_allowed_before_approval : List String :=
  ["name", "roll", "gender", "date_of_birth", "category", "rank", "course",
   "address", "X_marks", "XII_marks", "ug_college", "ug_cpi"]

/-- The fields a student may change in every workflow state. -/
def fields_allowed_anytime : List String :=
  ["resume_link", "other_achievements", "projects", "transcript_link",
   "cover_letter_link", "profile_pic"]

/-- The grade fields, changeable while the administrator allows it. -/
def cpi_spi_fields : List String :=
  ["spi_1", "spi_2", "spi_3", "spi_4", "spi_5", "spi_6", "spi_7", "spi_8",
   "spi_9", "spi_10", "cpi"]

/-- The fields that take an uploaded file. -/
def media_fields : List String :=
  ["resume", "profile_pic", "casteCertificate", "tenthCertificate",
   "twelthCertificate", "aadharCard", "panCard", "drivingLicence",
   "disabilityCertificate", "allSemMarksheet"]

/-- One round of the first `for (const field in body)` loop. -/
def approval_step (approved : String) (body : JsVal) (fields_to_modify : JsObj)
    (field : String) : JsObj :=
  if field ∈ fields_allowed_before_approval then
    if approved = "pending" then
      Obj.set fields_to_modify field (body.getProp field)
    else fields_to_modify
  else if field ∈ fields_allowed_anytime then
    Obj.set fields_to_modify field (body.getProp field)
  else fields_to_modify

/-- One round of the second `for (const field in body)` loop, which runs when
`cpi_change_allowed` is set. -/
def cpi_step (body : JsVal) (fields_to_modify : JsObj) (field : String) : JsObj :=
  if field ∈ cpi_spi_fields ∧ (body.getProp field).truthy = true
      ∧ (body.getProp field).isNaN = false then
    Obj.set fields_to_modify field (body.getProp field)
  else fields_to_modify

/-- The map `fields_to_modify` after both loops over the body, for a readable
settings singleton. -/
def filtered_fields (approved : String) (setting : Setting) (body : JsVal) : JsObj :=
  let fields_to_modify := body.props.keys.foldl (approval_step approved body) []
  if setting.cpi_change_allowed = some true then
    body.props.keys.foldl (cpi_step body) fields_to_modify
  else fields_to_modify

/-- The state that the loop over `files` carries. -/
structure MediaState where
  effects : List Effect
  files : Obj Attachment
  files_to_upload : Obj Attachment

/-- The assignment `file.name = name` on the value of `ctx.request.files[field]`:
on one file it changes the name of the file, on an array it sets a property
of the array and leaves the files in it as they are. -/
def Attachment.setName (name : String) : Attachment → Attachment
  | Attachment.one file => Attachment.one { file with name := name }
  | Attachment.many files _ => Attachment.many files (some name)

/-- The renaming that the loop over `files` applies to an attachment before it
is kept for upload: `ctx.request.files[field].name` becomes `<roll>.pdf` when
`field == "resume"`. -/
def renamed (roll : String) (field : String) (file : Attachment) : Attachment :=
  if field = "resume" then file.setName (roll ++ ".pdf") else file

/-- One round of `for (const field in files || {})`. The attachment is read
after the detaching update; a key of `files` always has one. -/
def media_step (id : Nat) (roll : String) (st : MediaState) (field : String) :
    MediaState :=
  if field ∈ media_fields then
    let effects := st.effects ++ [Effect.detach id field]
    match Obj.get st.files field with
    | none => { st with effects := effects }
    | some file =>
      { effects := effects
        files := Obj.set st.files field (renamed roll field file)
        files_to_upload :=
          Obj.set st.files_to_upload ("files." ++ field) (renamed roll field file) }
  else st

/-- The loop `for (const field in files || {})`. -/
def media_loop (id : Nat) (roll : String) (files : Obj Attachment) : MediaState :=
  files.keys.foldl (media_step id roll)
    { effects := [], files := files, files_to_upload := [] }

/-- The state that the loop over `files_to_upload` carries. -/
structure UploadState where
  effects : List Effect
  uploadedFiles : JsObj

/-- The artifact `uploaded[0]` that the upload service stored for a file, when
`uploaded && uploaded.length > 0`. -/
def first_uploaded (w : World) (file : Attachment) : Option JsVal :=
  match w.upload file with
  | some (first :: _) => some first
  | _ => none

/-- One round of `for (const field in files_to_upload)`. -/
def upload_step (w : World) (files_to_upload : Obj Attachment) (st : UploadState)
    (field : String) : UploadState :=
  match Obj.get files_to_upload field with
  | none => st
  | some file =>
    let effects := st.effects ++ [Effect.upload field file]
    match first_uploaded w file with
    | some first =>
      { effects := effects
        uploadedFiles := Obj.set st.uploadedFiles (field.drop 6) first }
    | none => { st with effects := effects }

/-- The loop `for (const field in files_to_upload)`, started after the effects
of the loop over `files`. -/
def upload_loop (w : World) (media : MediaState) : UploadState :=
  media.files_to_upload.keys.foldl (upload_step w media.files_to_upload)
    { effects := media.effects, uploadedFiles := [] }

/-- The handler `modify_multiple(ctx)`: the effects it issues, in order, and
its response. -/
def modify_multiple (w : World) (user : Option User) (body : JsVal)
    (files : Option (Obj Attachment)) : List Effect × Response :=
  match user with
  | none => ([], Response.badRequest "Bearer Token not provided or invalid")
  | some user =>
    let roll := user.username
    if body.truthy = false ∨ body.typeof ≠ "object" then
      ([], Response.badRequest "Invalid parameters")
    else
      match findStudent w.students roll with
      | none => ([], Response.internalServerError "Failed to fetch student data")
      | some student_data =>
        let id := student_data.id
        let approved := student_data.approved
        match w.setting with
        | none => ([], Response.typeError)
        | some setting =>
          let fields_to_modify := filtered_fields approved setting body
          let media := media_loop id roll (files.getD [])
          if fields_to_modify.keys.length = 0
              ∧ (files = none ∨ (files.getD []).keys.length = 0) then
            (media.effects, Response.noContent "No field modified")
          else
            let up := upload_loop w media
            let data := Obj.spread fields_to_modify up.uploadedFiles
            (up.effects ++ [Effect.update id data], Response.updated id data)

/-! ## submit_for_approval -/

/-- The handler `submit_for_approval(ctx)`, for the rounding `toDouble` of the
runtime: the effects it issues and its response. The destructuring
`const { data } = ctx.request.body` throws on a missing body, and so does, in
strict mode, a property write on a primitive. -/
def submit_for_approval (toDouble : ℚ → JsNum) (w : World) (user : Option User)
    (body : JsVal) :
    List Effect × Response :=
  match user with
  | none => ([], Response.badRequest "Bearer Token not provided or invalid")
  | some user =>
    if user.username = "" then
      ([], Response.badRequest "Bearer Token not provided or invalid")
    else
      match w.setting with
      | none =>
        ([], Response.internalServerError
          "Failed to get global settings for registrations allowed or not")
      | some setting =>
        if setting.registrations_allowed = some false then
          ([], Response.badRequest
            "Registrations are not allowed. Please contact Administrator")
        else
          match body with
          | JsVal.undefined => ([], Response.typeError)
          | JsVal.null => ([], Response.typeError)
          | body =>
            let data := body.getProp "data"
            if data.truthy = false then
              ([], Response.badRequest "Invalid parameters/Failed to parse")
            else if (data.getProp "roll").looseEqStr toDouble user.username = false then
              ([], Response.badRequest "Username does not match with roll number")
            else
              match data with
              | JsVal.obj props _ =>
                let props := Obj.set props "approved" (JsVal.str "pending")
                let props := Obj.set props "placed_status" (JsVal.str "unplaced")
                let props := Obj.set props "user_relation"
                  (JsVal.num (JsNum.fin (user.id : ℚ)))
                ([Effect.create props []], Response.created props [])
              | _ => ([], Response.typeError)

/-! ## Status queries -/

/-- A read that a status query makes on a store. -/
inductive StoreQuery where
  | studentFindOne
  | studentFindMany
  | applicationFindOne
  | applicationFindMany
  deriving DecidableEq

/-- The body that a status query answers with. -/
inductive StatusResponse where
  | notFound (id : String)
  /-- The body `{ [key]: value }` of a lookup for one roll. -/
  | flag (key : String) (value : Bool)
  /-- The body `{ [key]: rolls }` of a report over all rolls. -/
  | rolls (key : String) (rolls : List String)
  /-- The body `{ placed: { placed_tier1, placed_tier2, placed_tier3 } }` of the
  placement report. -/
  | placed (placed_tier1 placed_tier2 placed_tier3 : List String)
  /-- An uncaught `TypeError`. -/
  | typeError
  deriving DecidableEq

/-- The array `Array.from(new Set(xs))`: every element once, in the order of
first occurrence. -/
def arrayFromSet (xs : List String) : List String :=
  xs.foldl (fun acc x => if x ∈ acc then acc else acc ++ [x]) []

/-- The filter of the on-campus query: `status: "selected"` and a job matching
`$or: [{ category, classification: "none" }, { category }]`. -/
def selectedIn (category : String) (app : Application) : Bool :=
  decide (app.status = "selected"
    ∧ ((app.job.category = category ∧ app.job.classification = "none")
      ∨ app.job.category = category))

/-- The handler `get_intern_status_2(ctx)` for the query parameter `roll`:
the store reads it makes and the body it answers with. -/
def get_intern_status_2 (w : World) (roll : Option String) :
    List StoreQuery × StatusResponse :=
  if roll = none ∨ roll = some "" then
    let applications := w.applications.filter (selectedIn "Internship (2 Month)")
    let oncampus_intern := applications.map (fun app => app.student.roll)
    let students := w.students.filter
      (fun s => decide (s.internship_status_2 = some true))
    let offcampus_intern := students.map (fun student => student.roll)
    let intern_rolls := arrayFromSet (oncampus_intern ++ offcampus_intern)
    ([StoreQuery.applicationFindMany, StoreQuery.studentFindMany],
      StatusResponse.rolls "internship" intern_rolls)
  else
    match findStudent w.students (roll.getD "") with
    | none => ([StoreQuery.studentFindOne], StatusResponse.notFound "Student not found")
    | some student =>
      if student.internship_status_2 = some true then
        ([StoreQuery.studentFindOne], StatusResponse.flag "internship" true)
      else
        match w.applications.find? (fun app =>
          decide (app.student.id = student.id) && selectedIn "Internship (2 Month)" app) with
        | some _ =>
          ([StoreQuery.studentFindOne, StoreQuery.applicationFindOne],
            StatusResponse.flag "internship" true)
        | none =>
          ([StoreQuery.studentFindOne, StoreQuery.applicationFindOne],
            StatusResponse.flag "internship" false)

/-- The handler `get_intern_status_6(ctx)` for the query parameter `roll`. -/
def get_intern_status_6 (w : World) (roll : Option String) :
    List StoreQuery × StatusResponse :=
  if roll = none ∨ roll = some "" then
    let applications := w.applications.filter (selectedIn "Internship (6 Month)")
    let oncampus_intern := applications.map (fun app => app.student.roll)
    let students := w.students.filter
      (fun s => decide (s.internship_status_6 = some true))
    let offcampus_intern := students.map (fun student => student.roll)
    let intern_rolls := arrayFromSet (oncampus_intern ++ offcampus_intern)
    ([StoreQuery.applicationFindMany, StoreQuery.studentFindMany],
      StatusResponse.rolls "internship" intern_rolls)
  else
    match findStudent w.students (roll.getD "") with
    | none => ([StoreQuery.studentFindOne], StatusResponse.notFound "Student not found")
    | some student =>
      if student.internship_status_6 = some true then
        ([StoreQuery.studentFindOne], StatusResponse.flag "internship" true)
      else
        match w.applications.find? (fun app =>
          decide (app.student.id = student.id) && selectedIn "Internship (6 Month)" app) with
        | some _ =>
          ([StoreQuery.studentFindOne, StoreQuery.applicationFindOne],
            StatusResponse.flag "internship" true)
        | none =>
          ([StoreQuery.studentFindOne, StoreQuery.applicationFindOne],
            StatusResponse.flag "internship" false)

/-- The handler `get_fte_status(ctx)` for the query parameter `roll`. -/
def get_fte_status (w : World) (roll : Option String) :
    List StoreQuery × StatusResponse :=
  if roll = none ∨ roll = some "" then
    let applications := w.applications.filter (selectedIn "FTE")
    let oncampus_fte := applications.map (fun app => app.student.roll)
    let students := w.students.filter (fun s => decide (s.fte_status = some true))
    let offcampus_fte := students.map (fun student => student.roll)
    let fte_rolls := arrayFromSet (oncampus_fte ++ offcampus_fte)
    ([StoreQuery.applicationFindMany, StoreQuery.studentFindMany],
      StatusResponse.rolls "fte" fte_rolls)
  else
    match findStudent w.students (roll.getD "") with
    | none => ([StoreQuery.studentFindOne], StatusResponse.notFound "Student not found")
    | some student =>
      if student.fte_status = some true then
        ([StoreQuery.studentFindOne], StatusResponse.flag "fte" true)
      else
        match w.applications.find? (fun app =>
          decide (app.student.id = student.id) && selectedIn "FTE" app) with
        | some _ =>
          ([StoreQuery.studentFindOne, StoreQuery.applicationFindOne],
            StatusResponse.flag "fte" true)
        | none =>
          ([StoreQuery.studentFindOne, StoreQuery.applicationFindOne],
            StatusResponse.flag "fte" false)

/-- The filter of the placement queries: `status: "selected"` and a job with
`category: "FTE"` and `$not: { classification: "none" }`. -/
def selectedTiered (app : Application) : Bool :=
  decide (app.status = "selected" ∧ app.job.category = "FTE"
    ∧ ¬ app.job.classification = "none")

/-- The method `s.toLowerCase()`, on the ASCII letters. No other character has
a letter of `tier1`, `tier2` or `tier3` as its lower case, so this decides
which array of `oncampus_placed` a classification names. -/
def toLowerCase (s : String) : String := String.mk (s.data.map Char.toLower)

/-- One round of `applications.forEach`: the roll is pushed on the array that
`oncampus_placed` holds under `placed_<classification in lower case>`; when
there is no such array the push throws, which is `none` here. -/
def push_roll (oncampus_placed : Obj (List String)) (app : Application) :
    Option (Obj (List String)) :=
  match Obj.get oncampus_placed ("placed_" ++ toLowerCase app.job.classification) with
  | some rolls =>
    some (Obj.set oncampus_placed ("placed_" ++ toLowerCase app.job.classification)
      (rolls ++ [app.student.roll]))
  | none => none

/-- The loop `applications.forEach(...)` over `oncampus_placed`. -/
def push_rolls : List Application → Obj (List String) → Option (Obj (List String))
  | [], oncampus_placed => some oncampus_placed
  | app :: rest, oncampus_placed =>
    match push_roll oncampus_placed app with
    | some next => push_rolls rest next
    | none => none

/-- The handler `get_placed_status(ctx)` for the query parameter `roll`: the
store reads it makes and the body it answers with. The students who are not
unplaced are read for the report and not used in it. -/
def get_placed_status (w : World) (roll : Option String) :
    List StoreQuery × StatusResponse :=
  if roll = none ∨ roll = some "" then
    let applications := w.applications.filter selectedTiered
    match push_rolls applications
      [("placed_tier1", []), ("placed_tier2", []), ("placed_tier3", [])] with
    | none => ([StoreQuery.applicationFindMany], StatusResponse.typeError)
    | some oncampus_placed =>
      ([StoreQuery.applicationFindMany, StoreQuery.studentFindMany],
        StatusResponse.placed
          (arrayFromSet ((Obj.get oncampus_placed "placed_tier1").getD []))
          (arrayFromSet ((Obj.get oncampus_placed "placed_tier2").getD []))
          (arrayFromSet ((Obj.get oncampus_placed "placed_tier3").getD [])))
  else
    match findStudent w.students (roll.getD "") with
    | none => ([StoreQuery.studentFindOne], StatusResponse.notFound "Student not found")
    | some student =>
      if student.placed_status ≠ "unplaced" then
        ([StoreQuery.studentFindOne], StatusResponse.flag "placed" true)
      else
        match w.applications.find? (fun app =>
          decide (app.student.id = student.id) && selectedTiered app) with
        | some _ =>
          ([StoreQuery.studentFindOne, StoreQuery.applicationFindOne],
            StatusResponse.flag "placed" true)
        | none =>
          ([StoreQuery.studentFindOne, StoreQuery.applicationFindOne],
            StatusResponse.flag "placed" false)

/-! ## set_placed_status -/

/-- The query parameters of the administrative status-set request. -/
structure PlacedQuery where
  roll : Option String
  placed_status : Option String
  deriving DecidableEq

/-- The handler `set_placed_status(ctx)` for `ctx.request.query`, with `now`
the text of the `new Date()` it stamps: the effects it issues and its response.
A parameter that is absent or empty is falsy. -/
def set_placed_status (query : Option PlacedQuery) (now : String) :
    List Effect × Response :=
  match query with
  | none => ([], Response.badRequest "Roll or placed_status not passed")
  | some query =>
    if query.roll = none ∨ query.roll = some ""
        ∨ query.placed_status = none ∨ query.placed_status = some "" then
      ([], Response.badRequest "Roll or placed_status not passed")
    else
      let roll := query.roll.getD ""
      let placed_status := query.placed_status.getD ""
      if placed_status ∉ ["placed_tier1", "placed_tier2", "placed_tier3", "unplaced"] then
        ([], Response.badRequest "Invalid placed_status")
      else
        ([Effect.updateByRoll roll
            [("placed_status", JsVal.str placed_status),
             ("placed_status_updated", JsVal.obj [] now)]],
          Response.placedStatus placed_status)

/-! ## Auxiliary definitions for the statements -/

/-- The shape that the three handlers without tiers share: a report over all
rolls and a lookup for one roll, for a job category, a stored flag and a key
of the body. -/
def status_query (category key : String) (flag : Student → Option Bool) (w : World)
    (roll : Option String) : List StoreQuery × StatusResponse :=
  if roll = none ∨ roll = some "" then
    ([StoreQuery.applicationFindMany, StoreQuery.studentFindMany],
      StatusResponse.rolls key
        (arrayFromSet ((w.applications.filter (selectedIn category)).map
            (fun app => app.student.roll)
          ++ (w.students.filter (fun s => decide (flag s = some true))).map
            (fun student => student.roll))))
  else
    match findStudent w.students (roll.getD "") with
    | none => ([StoreQuery.studentFindOne], StatusResponse.notFound "Student not found")
    | some student =>
      if flag student = some true then
        ([StoreQuery.studentFindOne], StatusResponse.flag key true)
      else
        match w.applications.find? (fun app =>
          decide (app.student.id = student.id) && selectedIn category app) with
        | some _ =>
          ([StoreQuery.studentFindOne, StoreQuery.applicationFindOne],
            StatusResponse.flag key true)
        | none =>
          ([StoreQuery.studentFindOne, StoreQuery.applicationFindOne],
            StatusResponse.flag key false)

/-- A dimension without tiers: its handler, the job category its on-campus
query asks for, the stored flag it reads and the key of its body. -/
structure Dimension where
  handler : World → Option String → List StoreQuery × StatusResponse
  category : String
  flag : Student → Option Bool
  key : String

/-- The two-month internship, as `get_intern_status_2` answers it. -/
def internDimension2 : Dimension :=
  { handler := get_intern_status_2, category := "Internship (2 Month)",
    flag := fun s => s.internship_status_2, key := "internship" }

/-- The six-month internship, as `get_intern_status_6` answers it. -/
def internDimension6 : Dimension :=
  { handler := get_intern_status_6, category := "Internship (6 Month)",
    flag := fun s => s.internship_status_6, key := "internship" }

/-- The full-time offer, as `get_fte_status` answers it. -/
def fteDimension : Dimension :=
  { handler := get_fte_status, category := "FTE",
    flag := fun s => s.fte_status, key := "fte" }

/-- The three dimensions without tiers. -/
def dimensions : List Dimension := [internDimension2, internDimension6, fteDimension]

/-- A numeric value, in the words of the specification: a number other than
`NaN`, or a string that is not blank and reads as a number. -/
def JsVal.isNumeric : JsVal → Bool
  | JsVal.num n => !n.isNaN
  | JsVal.str s => !(s.toList.all isStrWhiteSpaceChar) && !(StringToNumber s).isNaN
  | _ => false

/-- What the first loop over the body writes for a field. -/
def approval_write (approved : String) (body : JsVal) (field : String) :
    Option JsVal :=
  if (field ∈ fields_allowed_before_approval ∧ approved = "pending")
      ∨ (field ∉ fields_allowed_before_approval ∧ field ∈ fields_allowed_anytime) then
    some (body.getProp field)
  else none

/-- What the second loop over the body writes for a field. -/
def cpi_write (body : JsVal) (field : String) : Option JsVal :=
  if field ∈ cpi_spi_fields ∧ (body.getProp field).truthy = true
      ∧ (body.getProp field).isNaN = false then
    some (body.getProp field)
  else none

/-- What the loop over `files` keeps for upload under `files.<field>`. -/
def media_write (roll : String) (files : Obj Attachment) (field : String) :
    Option Attachment :=
  if field ∈ media_fields then (Obj.get files field).map (renamed roll field) else none

/-! ## Sample requests -/

/-- A pending student. -/
def sampleStudent : Student :=
  { id := 1, roll := "19cs11", approved := "pending", placed_status := "unplaced",
    internship_status_2 := none, internship_status_6 := none, fte_status := none }

/-- The user of `sampleStudent`. -/
def sampleUser : User := { id := 7, username := "19cs11" }

/-- A settings singleton that allows registrations and grade changes. -/
def sampleSetting : Setting :=
  { registrations_allowed := some true, cpi_change_allowed := some true }

/-- A world with one student, whose upload service stores every file and
answers with one artifact for each, named after the file. -/
def sampleWorld : World :=
  { students := [sampleStudent], applications := [], setting := some sampleSetting,
    upload := fun file => some (file.parts.map (fun part => JsVal.str part.name)) }

/-- The body `{ name: "X", resume_link: "http://cv", unknown_field: "Y" }`. -/
def sampleBody : JsVal :=
  JsVal.obj [("name", JsVal.str "X"), ("resume_link", JsVal.str "http://cv"),
    ("unknown_field", JsVal.str "Y")] "[object Object]"

/-- The attachments `{ resume: <cv.pdf> }`. -/
def sampleFiles : Obj Attachment :=
  [("resume", Attachment.one { name := "cv.pdf", content := "%PDF" })]

/-- A world like `sampleWorld` whose settings lookup returns nothing. -/
def worldWithoutSetting : World := { sampleWorld with setting := none }

/-- The patch that `sampleBody` with `sampleFiles` leads to. -/
def samplePatch : JsObj :=
  [("name", JsVal.str "X"), ("resume_link", JsVal.str "http://cv"),
    ("resume", JsVal.str "19cs11.pdf")]

/-- The body `{ cpi: 0 }`. -/
def zeroCpiBody : JsVal :=
  JsVal.obj [("cpi", JsVal.num (JsNum.fin 0))] "[object Object]"

/-- The body `{ cpi: 8.5, spi_1: "9.1", spi_2: "nine" }`. -/
def gradesBody : JsVal :=
  JsVal.obj [("cpi", JsVal.num (JsNum.fin (17 / 2))), ("spi_1", JsVal.str "9.1"),
    ("spi_2", JsVal.str "nine")] "[object Object]"

/-- The body `{ data: { name: "koi", roll: "19cs11", approved: "approved",
placed_status: "placed_tier1" } }` of a student who tries to approve and place
themself. -/
def submitBody : JsVal :=
  JsVal.obj [("data", JsVal.obj [("name", JsVal.str "koi"), ("roll", JsVal.str "19cs11"),
    ("approved", JsVal.str "approved"), ("placed_status", JsVal.str "placed_tier1")]
    "[object Object]")] "[object Object]"

/-- The record payload that `submitBody` leads to for `sampleUser`. -/
def submitData : JsObj :=
  [("name", JsVal.str "koi"), ("roll", JsVal.str "19cs11"),
    ("approved", JsVal.str "pending"), ("placed_status", JsVal.str "unplaced"),
    ("user_relation", JsVal.num (JsNum.fin 7))]

/-- The body `{ data: { name: "koi", roll: "20cs99" } }`, with the roll of
somebody else. -/
def foreignRollBody : JsVal :=
  JsVal.obj [("data", JsVal.obj [("name", JsVal.str "koi"), ("roll", JsVal.str "20cs99")]
    "[object Object]")] "[object Object]"

/-- A world like `sampleWorld` whose administrator has closed registrations. -/
def closedWorld : World :=
  { sampleWorld with
    setting := some { registrations_allowed := some false, cpi_change_allowed := some true } }

/-- A world like `sampleWorld` whose upload service stores nothing. -/
def failingUploadWorld : World := { sampleWorld with upload := fun _ => some [] }

/-- The empty body `{}`. -/
def emptyBody : JsVal := JsVal.obj [] "[object Object]"

/-- A job of category FTE with the tier label `Tier1`. -/
def tier1Job : Job := { category := "FTE", classification := "Tier1" }

/-- A two-month internship without a tier label. -/
def internJob : Job := { category := "Internship (2 Month)", classification := "none" }

/-- A world in which `sampleStudent`, who has no flag set, is selected for
`tier1Job`. -/
def tier1World : World :=
  { sampleWorld with
    applications := [{ status := "selected", student := sampleStudent, job := tier1Job }] }

/-- A world in which `sampleStudent`, who has no flag set, is selected for
`internJob`. -/
def internWorld : World :=
  { sampleWorld with
    applications := [{ status := "selected", student := sampleStudent, job := internJob }] }

/-- A student placed off campus: `placed_status` is set and there is no
application. -/
def offCampusStudent : Student :=
  { id := 2, roll := "19ec62", approved := "approved", placed_status := "placed_tier1",
    internship_status_2 := some true, internship_status_6 := none, fte_status := none }

/-- A world whose only student is `offCampusStudent`, without applications. -/
def offCampusWorld : World := { sampleWorld with students := [offCampusStudent] }

/-- A job of category FTE with the tier label `Tier2`. -/
def tier2Job : Job := { category := "FTE", classification := "Tier2" }

/-- A job of category FTE without a tier label. -/
def untieredJob : Job := { category := "FTE", classification := "none" }

/-- A world in which `sampleStudent` is selected for `tier2Job` and
`offCampusStudent` for `untieredJob`. -/
def tier2World : World :=
  { sampleWorld with
    students := [sampleStudent, offCampusStudent]
    applications :=
      [{ status := "selected", student := sampleStudent, job := tier2Job },
       { status := "selected", student := offCampusStudent, job := untieredJob }] }

/-- The attachments of a form with two parts named `resume`: the array of the
two files. -/
def twoResumes : Obj Attachment :=
  [("resume", Attachment.many
    [{ name := "cv.pdf", content := "%PDF" }, { name := "cv-old.pdf", content := "%PDF" }]
    none)]

/-- A user whose username reads as a number that is no double. -/
def wideUser : User := { id := 9, username := "9007199254740993" }

/-- The body `{ data: { roll: 9007199254740992 } }`, with the roll as a number:
the double that the username of `wideUser` rounds to. -/
def wideRollBody : JsVal :=
  JsVal.obj [("data", JsVal.obj [("roll", JsVal.num (JsNum.fin 9007199254740992))]
    "[object Object]")] "[object Object]"

/-! ## Objects: reads after writes -/

theorem Obj.get_set_self {α : Type} (o : Obj α) (k : String) (v : α) :
    Obj.get (Obj.set o k v) k = some v := by
  induction o with
  | nil => simp [Obj.set, Obj.get]
  | cons kv rest ih =>
    obtain ⟨k', v'⟩ := kv
    by_cases h : k' = k
    · simp [Obj.set, Obj.get, h]
    · simp [Obj.set, Obj.get, h, ih]

theorem Obj.get_set_of_ne {α : Type} (o : Obj α) {k k' : String} (h : k ≠ k')
    (v : α) : Obj.get (Obj.set o k v) k' = Obj.get o k' := by
  induction o with
  | nil => simp [Obj.set, Obj.get, h]
  | cons kv rest ih =>
    obtain ⟨k₀, v₀⟩ := kv
    by_cases h₀ : k₀ = k
    · subst h₀
      simp [Obj.set, Obj.get, h]
    · by_cases h₁ : k₀ = k'
      · subst h₁
        simp [Obj.set, Obj.get, h₀]
      · simp [Obj.set, Obj.get, h₀, h₁, ih]

theorem Obj.mem_keys_iff {α : Type} (o : Obj α) (k : String) :
    k ∈ Obj.keys o ↔ ∃ v, Obj.get o k = some v := by
  induction o with
  | nil => simp [Obj.keys, Obj.get]
  | cons kv rest ih =>
    obtain ⟨k₀, v₀⟩ := kv
    by_cases h₀ : k₀ = k
    · simp [Obj.keys, Obj.get, h₀]
    · have h₁ : ¬ k = k₀ := fun e => h₀ e.symm
      simp only [Obj.keys, List.map_cons, List.mem_cons, h₁, false_or, Obj.get, h₀,
        if_false]
      exact ih

theorem Obj.not_mem_keys_iff {α : Type} (o : Obj α) (k : String) :
    k ∉ Obj.keys o ↔ Obj.get o k = none := by
  rw [Obj.mem_keys_iff]
  cases Obj.get o k <;> simp

theorem Obj.keys_eq_nil {α : Type} (o : Obj α) : Obj.keys o = [] ↔ o = [] := by
  cases o <;> simp [Obj.keys]

theorem Obj.write_some {α : Type} (o : Obj α) (k : String) (v : α) :
    Obj.write o k (some v) = Obj.set o k v := rfl

theorem Obj.write_none {α : Type} (o : Obj α) (k : String) :
    Obj.write o k none = o := rfl

/-- The outcome of a loop that, for each element `x` in turn, writes `v` under
the key `κ x` when `h x = some v` and writes nothing when `h x = none`: a key
holds what the last element writing to it wrote. -/
theorem Obj.get_foldl_set {α β : Type} (κ : β → String) (h : β → Option α)
    (xs : List β) (acc : Obj α) (k : String) :
    Obj.get (xs.foldl (fun acc x => Obj.write acc (κ x) (h x)) acc) k
      = ((xs.reverse.findSome? (fun x => if κ x = k then h x else none)).or
          (Obj.get acc k)) := by
  induction xs using List.reverseRecOn with
  | nil => simp
  | append_singleton xs x ih =>
    rw [List.foldl_append, List.reverse_append]
    simp only [List.foldl_cons, List.foldl_nil, List.reverse_cons, List.reverse_nil,
      List.nil_append, List.singleton_append, List.findSome?_cons]
    cases hx : h x with
    | none =>
      simp only [Obj.write_none, ih]
      split <;> simp_all
    | some v =>
      by_cases hk : κ x = k
      · subst hk
        simp [Obj.write_some, Obj.get_set_self, hx]
      · simp only [Obj.write_some, hk, if_false]
        rw [Obj.get_set_of_ne _ hk, ih]

/-- When each element writes under its own name, a key holds what its own
element wrote. -/
theorem Obj.get_foldl_set_self {α : Type} (h : String → Option α)
    (xs : List String) (acc : Obj α) (k : String) :
    Obj.get (xs.foldl (fun acc x => Obj.write acc x (h x)) acc) k
      = (if k ∈ xs then h k else none).or (Obj.get acc k) := by
  rw [Obj.get_foldl_set (fun x => x) h xs acc k]
  have key : ∀ ys : List String,
      ys.findSome? (fun x => if x = k then h x else none)
        = if k ∈ ys then h k else none := by
    intro ys
    induction ys with
    | nil => simp
    | cons y ys ih =>
      by_cases hy : y = k
      · subst hy
        cases hh : h y <;> simp [List.findSome?_cons, hh, ih]
      · have hy' : ¬ k = y := fun e => hy e.symm
        simp [List.findSome?_cons, hy, hy', ih]
  rw [key]
  simp only [List.mem_reverse]

theorem files_key_drop (f : String) : ("files." ++ f).drop 6 = f := by
  rw [String.drop_eq]
  rfl

theorem files_key_injective {f g : String} (h : "files." ++ f = "files." ++ g) :
    f = g := by
  have := congrArg (fun s : String => s.drop 6) h
  simpa [files_key_drop] using this

/-! ## The field filter of modify_multiple -/

theorem approval_step_eq (approved : String) (body : JsVal) :
    approval_step approved body = fun acc field =>
      Obj.write acc field (approval_write approved body field) := by
  funext acc field
  unfold approval_step approval_write
  by_cases h₁ : field ∈ fields_allowed_before_approval
  · by_cases h₂ : approved = "pending" <;> simp [h₁, h₂, Obj.write_some, Obj.write_none]
  · by_cases h₃ : field ∈ fields_allowed_anytime <;>
      simp [h₁, h₃, Obj.write_some, Obj.write_none]

theorem cpi_step_eq (body : JsVal) :
    cpi_step body = fun acc field =>
      Obj.write acc field (cpi_write body field) := by
  funext acc field
  unfold cpi_step cpi_write
  split <;> simp [Obj.write_some, Obj.write_none]

/-- The value that `fields_to_modify` holds for a key after both loops. -/
theorem filtered_fields_get (approved : String) (setting : Setting) (body : JsVal)
    (k : String) :
    Obj.get (filtered_fields approved setting body) k
      = if k ∈ body.props.keys then
          ((if setting.cpi_change_allowed = some true then cpi_write body k else none).or
            (approval_write approved body k))
        else none := by
  unfold filtered_fields
  by_cases hc : setting.cpi_change_allowed = some true
  · simp only [hc, if_true]
    rw [cpi_step_eq, approval_step_eq, Obj.get_foldl_set_self, Obj.get_foldl_set_self]
    by_cases hk : k ∈ body.props.keys <;> simp [hk, Obj.get]
  · simp only [hc, if_false]
    rw [approval_step_eq, Obj.get_foldl_set_self]
    by_cases hk : k ∈ body.props.keys <;> simp [hk, Obj.get]

/-! ## The loops over the attachments -/

theorem findSome_key {α : Type} (h : String → Option α) (k : String)
    (ys : List String) :
    ys.findSome? (fun x => if x = k then h x else none)
      = if k ∈ ys then h k else none := by
  induction ys with
  | nil => simp
  | cons y ys ih =>
    by_cases hy : y = k
    · subst hy
      cases hh : h y <;> simp [List.findSome?_cons, hh, ih]
    · have hy' : ¬ k = y := fun e => hy e.symm
      simp [List.findSome?_cons, hy, hy', ih]

theorem findSome_congr {α β : Type} (p q : β → Option α) (ys : List β)
    (hpq : ∀ y ∈ ys, p y = q y) : ys.findSome? p = ys.findSome? q := by
  induction ys with
  | nil => rfl
  | cons y ys ih =>
    have hy := hpq y (List.mem_cons_self y ys)
    have ih' := ih (fun z hz => hpq z (List.mem_cons_of_mem y hz))
    simp [List.findSome?_cons, hy, ih']

theorem renamed_renamed (roll field : String) (file : Attachment) :
    renamed roll field (renamed roll field file) = renamed roll field file := by
  unfold renamed
  split
  · cases file <;> rfl
  · rfl

/-- The loop over `files`, from any state whose files are the original ones up
to the renaming: the detaching updates it issues and the files it keeps. -/
theorem media_fold_spec (id : Nat) (roll : String) (orig : Obj Attachment)
    (ks : List String) (st : MediaState)
    (hinv : ∀ f, (Obj.get st.files f).map (renamed roll f)
      = (Obj.get orig f).map (renamed roll f)) :
    (ks.foldl (media_step id roll) st).effects
        = st.effects ++ (ks.filter (fun f => decide (f ∈ media_fields))).map
            (Effect.detach id)
      ∧ (ks.foldl (media_step id roll) st).files_to_upload
        = ks.foldl (fun acc field =>
            Obj.write acc ("files." ++ field) (media_write roll orig field))
            st.files_to_upload := by
  induction ks generalizing st with
  | nil => simp
  | cons k ks ih =>
    simp only [List.foldl_cons]
    by_cases hm : k ∈ media_fields
    · cases hg : Obj.get st.files k with
      | none =>
        have hstep : media_step id roll st k
            = { st with effects := st.effects ++ [Effect.detach id k] } := by
          simp [media_step, hm, hg]
        have ho : media_write roll orig k = none := by
          have := hinv k
          rw [hg] at this
          simp only [Option.map_none'] at this
          simp [media_write, hm, ← this]
        rw [hstep, ho, Obj.write_none]
        obtain ⟨h₁, h₂⟩ := ih { st with effects := st.effects ++ [Effect.detach id k] } hinv
        refine ⟨?_, h₂⟩
        rw [h₁]
        simp [List.filter_cons, hm]
      | some file =>
        have hstep : media_step id roll st k
            = { effects := st.effects ++ [Effect.detach id k]
                files := Obj.set st.files k (renamed roll k file)
                files_to_upload :=
                  Obj.set st.files_to_upload ("files." ++ k) (renamed roll k file) } := by
          simp [media_step, hm, hg]
        have ho : media_write roll orig k = some (renamed roll k file) := by
          have := hinv k
          rw [hg] at this
          simp only [Option.map_some'] at this
          simp [media_write, hm, ← this]
        rw [hstep, ho, Obj.write_some]
        have hinv' : ∀ f, (Obj.get (Obj.set st.files k (renamed roll k file)) f).map
            (renamed roll f) = (Obj.get orig f).map (renamed roll f) := by
          intro f
          by_cases hf : k = f
          · subst hf
            rw [Obj.get_set_self, ← hinv k, hg]
            simp [renamed_renamed]
          · rw [Obj.get_set_of_ne _ hf, hinv f]
        obtain ⟨h₁, h₂⟩ := ih
          { effects := st.effects ++ [Effect.detach id k]
            files := Obj.set st.files k (renamed roll k file)
            files_to_upload :=
              Obj.set st.files_to_upload ("files." ++ k) (renamed roll k file) } hinv'
        refine ⟨?_, h₂⟩
        rw [h₁]
        simp [List.filter_cons, hm]
    · have hstep : media_step id roll st k = st := by simp [media_step, hm]
      have ho : media_write roll orig k = none := by simp [media_write, hm]
      rw [hstep, ho, Obj.write_none]
      obtain ⟨h₁, h₂⟩ := ih st hinv
      refine ⟨?_, h₂⟩
      rw [h₁]
      simp [List.filter_cons, hm]

/-- The detaching updates that the loop over `files` issues. -/
theorem media_loop_effects (id : Nat) (roll : String) (files : Obj Attachment) :
    (media_loop id roll files).effects
      = (files.keys.filter (fun f => decide (f ∈ media_fields))).map
          (Effect.detach id) := by
  have := (media_fold_spec id roll files files.keys
    { effects := [], files := files, files_to_upload := [] } (fun _ => rfl)).1
  simpa [media_loop] using this

/-- The file that `files_to_upload` holds under `files.<f>`. -/
theorem media_loop_get (id : Nat) (roll : String) (files : Obj Attachment) (f : String) :
    Obj.get (media_loop id roll files).files_to_upload ("files." ++ f)
      = media_write roll files f := by
  have h := (media_fold_spec id roll files files.keys
    { effects := [], files := files, files_to_upload := [] } (fun _ => rfl)).2
  simp only [media_loop]
  rw [h, Obj.get_foldl_set (fun field => "files." ++ field)]
  have hc : files.keys.reverse.findSome?
        (fun x => if "files." ++ x = "files." ++ f then media_write roll files x else none)
      = files.keys.reverse.findSome?
        (fun x => if x = f then media_write roll files x else none) := by
    apply findSome_congr
    intro y _
    by_cases hy : y = f
    · simp [hy]
    · have : ¬ "files." ++ y = "files." ++ f := fun e => hy (files_key_injective e)
      simp [hy, this]
  rw [hc, findSome_key]
  by_cases hk : f ∈ files.keys.reverse
  · simp [hk, Obj.get]
  · have hk' : f ∉ Obj.keys files := by simpa using hk
    have hn := (Obj.not_mem_keys_iff files f).1 hk'
    simp [hk, Obj.get, media_write, hn]

/-- Every key of `files_to_upload` is `files.<f>` for a media field `f` of the
attachments. -/
theorem media_loop_keys (id : Nat) (roll : String) (files : Obj Attachment)
    (key : String) (hkey : key ∈ (media_loop id roll files).files_to_upload.keys) :
    ∃ f, key = "files." ++ f ∧ f ∈ media_fields ∧ f ∈ files.keys := by
  have h := (media_fold_spec id roll files files.keys
    { effects := [], files := files, files_to_upload := [] } (fun _ => rfl)).2
  obtain ⟨v, hv⟩ := (Obj.mem_keys_iff _ _).1 hkey
  simp only [media_loop] at hv
  rw [h, Obj.get_foldl_set (fun field => "files." ++ field)] at hv
  simp only [Obj.get, Option.or_none] at hv
  obtain ⟨x, hx, hx'⟩ := List.exists_of_findSome?_eq_some hv
  by_cases he : "files." ++ x = key
  · refine ⟨x, he.symm, ?_, by simpa using hx⟩
    simp only [he, if_true] at hx'
    by_contra hm
    simp [media_write, hm] at hx'
  · simp [he] at hx'

/-- The loop over `files_to_upload`, from any state: the upload calls it makes
and the references it keeps. -/
theorem upload_fold_spec (w : World) (ftu : Obj Attachment) (ks : List String)
    (st : UploadState) :
    (ks.foldl (upload_step w ftu) st).effects
        = st.effects ++ ks.filterMap
            (fun key => (Obj.get ftu key).map (Effect.upload key))
      ∧ (ks.foldl (upload_step w ftu) st).uploadedFiles
        = ks.foldl (fun acc key =>
            Obj.write acc (key.drop 6) ((Obj.get ftu key).bind (first_uploaded w)))
            st.uploadedFiles := by
  induction ks generalizing st with
  | nil => simp
  | cons k ks ih =>
    simp only [List.foldl_cons]
    cases hg : Obj.get ftu k with
    | none =>
      have hstep : upload_step w ftu st k = st := by simp [upload_step, hg]
      rw [hstep]
      obtain ⟨h₁, h₂⟩ := ih st
      refine ⟨?_, ?_⟩
      · rw [h₁]
        simp [List.filterMap_cons, hg]
      · rw [h₂]
        simp [Obj.write_none]
    | some file =>
      cases hu : first_uploaded w file with
      | none =>
        have hstep : upload_step w ftu st k
            = { st with effects := st.effects ++ [Effect.upload k file] } := by
          simp [upload_step, hg, hu]
        rw [hstep]
        obtain ⟨h₁, h₂⟩ := ih { st with effects := st.effects ++ [Effect.upload k file] }
        refine ⟨?_, ?_⟩
        · rw [h₁]
          simp [List.filterMap_cons, hg]
        · rw [h₂]
          simp [Obj.write_none, hu]
      | some first =>
        have hstep : upload_step w ftu st k
            = { effects := st.effects ++ [Effect.upload k file]
                uploadedFiles := Obj.set st.uploadedFiles (k.drop 6) first } := by
          simp [upload_step, hg, hu]
        rw [hstep]
        obtain ⟨h₁, h₂⟩ := ih
          { effects := st.effects ++ [Effect.upload k file]
            uploadedFiles := Obj.set st.uploadedFiles (k.drop 6) first }
        refine ⟨?_, ?_⟩
        · rw [h₁]
          simp [List.filterMap_cons, hg]
        · rw [h₂]
          simp [Obj.write_some, hu]

/-- The effects after both loops: the detaching updates, then the uploads. -/
theorem upload_loop_effects (w : World) (id : Nat) (roll : String)
    (files : Obj Attachment) :
    (upload_loop w (media_loop id roll files)).effects
      = (files.keys.filter (fun f => decide (f ∈ media_fields))).map
          (Effect.detach id)
        ++ (media_loop id roll files).files_to_upload.keys.filterMap
          (fun key => (Obj.get (media_loop id roll files).files_to_upload key).map
            (Effect.upload key)) := by
  have h := (upload_fold_spec w (media_loop id roll files).files_to_upload
    (media_loop id roll files).files_to_upload.keys
    { effects := (media_loop id roll files).effects, uploadedFiles := [] }).1
  simp only [upload_loop]
  rw [h, media_loop_effects]

/-- The reference that `uploadedFiles` holds for a field: the first artifact
stored for the file kept for that field. -/
theorem upload_loop_get (w : World) (id : Nat) (roll : String)
    (files : Obj Attachment) (f : String) :
    Obj.get (upload_loop w (media_loop id roll files)).uploadedFiles f
      = (media_write roll files f).bind (first_uploaded w) := by
  have h := (upload_fold_spec w (media_loop id roll files).files_to_upload
    (media_loop id roll files).files_to_upload.keys
    { effects := (media_loop id roll files).effects, uploadedFiles := [] }).2
  simp only [upload_loop]
  rw [h, Obj.get_foldl_set (fun key : String => key.drop 6)]
  have hc : (media_loop id roll files).files_to_upload.keys.reverse.findSome?
        (fun key => if key.drop 6 = f then
          (Obj.get (media_loop id roll files).files_to_upload key).bind (first_uploaded w)
          else none)
      = (media_loop id roll files).files_to_upload.keys.reverse.findSome?
        (fun key => if key = "files." ++ f then
          (Obj.get (media_loop id roll files).files_to_upload key).bind (first_uploaded w)
          else none) := by
    apply findSome_congr
    intro key hkey
    obtain ⟨g, hg, _, _⟩ := media_loop_keys id roll files key (by simpa using hkey)
    subst hg
    rw [files_key_drop]
    by_cases hgf : g = f
    · simp [hgf]
    · have : ¬ "files." ++ g = "files." ++ f := fun e => hgf (files_key_injective e)
      simp [hgf, this]
  rw [hc, findSome_key]
  by_cases hk : "files." ++ f ∈ (media_loop id roll files).files_to_upload.keys.reverse
  · simp [hk, Obj.get, media_loop_get]
  · have hk' : "files." ++ f ∉ (media_loop id roll files).files_to_upload.keys := by
      simpa using hk
    have hn := (Obj.not_mem_keys_iff _ _).1 hk'
    rw [media_loop_get] at hn
    simp [hk, Obj.get, hn]

/-- The handler past its guards: a signed-in user, an object body, a student
row for the user and a readable settings singleton. -/
theorem modify_multiple_reached (w : World) (u : User) (body : JsVal)
    (files : Option (Obj Attachment)) (st : Student) (sg : Setting)
    (hb : body.truthy = true) (ht : body.typeof = "object")
    (hs : findStudent w.students u.username = some st) (hg : w.setting = some sg) :
    modify_multiple w (some u) body files
      = if (filtered_fields st.approved sg body).keys.length = 0
            ∧ (files = none ∨ (files.getD []).keys.length = 0) then
          ((media_loop st.id u.username (files.getD [])).effects,
            Response.noContent "No field modified")
        else
          ((upload_loop w (media_loop st.id u.username (files.getD []))).effects
              ++ [Effect.update st.id (Obj.spread (filtered_fields st.approved sg body)
                (upload_loop w (media_loop st.id u.username (files.getD []))).uploadedFiles)],
            Response.updated st.id (Obj.spread (filtered_fields st.approved sg body)
              (upload_loop w (media_loop st.id u.username (files.getD []))).uploadedFiles)) := by
  simp [modify_multiple, hb, ht, hs, hg]

/-! ## The spread of two objects -/

theorem Obj.get_eq_findSome {α : Type} (o : Obj α) (k : String) :
    Obj.get o k = o.findSome? (fun kv => if kv.1 = k then some kv.2 else none) := by
  induction o with
  | nil => rfl
  | cons kv rest ih =>
    obtain ⟨k₀, v₀⟩ := kv
    by_cases h₀ : k₀ = k <;> simp [Obj.get, List.findSome?_cons, h₀, ih]

theorem Obj.get_spread {α : Type} (a b : Obj α) (k : String) :
    Obj.get (Obj.spread a b) k
      = (b.reverse.findSome? (fun kv => if kv.1 = k then some kv.2 else none)).or
          (Obj.get a k) := by
  have h := Obj.get_foldl_set (fun kv : String × α => kv.1) (fun kv => some kv.2) b a k
  simp only [Obj.write_some] at h
  exact h

theorem Obj.mem_keys_spread {α : Type} (a b : Obj α) (k : String) :
    k ∈ Obj.keys (Obj.spread a b) ↔ k ∈ Obj.keys a ∨ k ∈ Obj.keys b := by
  rw [Obj.mem_keys_iff, Obj.get_spread]
  constructor
  · rintro ⟨v, hv⟩
    cases hf : b.reverse.findSome? (fun kv => if kv.1 = k then some kv.2 else none) with
    | none =>
      rw [hf] at hv
      left
      exact (Obj.mem_keys_iff a k).2 ⟨v, by simpa using hv⟩
    | some x =>
      right
      obtain ⟨kv, hkv, hx⟩ := List.exists_of_findSome?_eq_some hf
      by_cases hk : kv.1 = k
      · subst hk
        exact List.mem_map_of_mem Prod.fst (by simpa using hkv)
      · simp [hk] at hx
  · intro h
    cases hf : b.reverse.findSome? (fun kv => if kv.1 = k then some kv.2 else none) with
    | some x => exact ⟨x, by simp⟩
    | none =>
      rcases h with ha | hb
      · obtain ⟨v, hv⟩ := (Obj.mem_keys_iff a k).1 ha
        exact ⟨v, by simp [hv]⟩
      · exfalso
        obtain ⟨kv, hkv, hk⟩ := List.mem_map.1 hb
        rw [List.findSome?_eq_none_iff] at hf
        have := hf kv (by simpa using hkv)
        simp [hk] at this

theorem Obj.get_spread_of_not_mem {α : Type} (a b : Obj α) (k : String)
    (hk : k ∉ Obj.keys b) : Obj.get (Obj.spread a b) k = Obj.get a k := by
  rw [Obj.get_spread]
  have : b.reverse.findSome? (fun kv => if kv.1 = k then some kv.2 else none) = none := by
    rw [List.findSome?_eq_none_iff]
    intro kv hkv
    by_cases h : kv.1 = k
    · exact absurd (h ▸ List.mem_map_of_mem Prod.fst (by simpa using hkv)) hk
    · simp [h]
  rw [this]
  rfl

/-! ## C1: the patch holds allowed keys only -/

/-- The keys of `fields_to_modify` are allowed for the workflow state and the
policy. -/
theorem filtered_fields_keys (approved : String) (setting : Setting) (body : JsVal)
    (k : String) (hk : k ∈ (filtered_fields approved setting body).keys) :
    k ∈ fields_allowed_anytime
      ∨ (k ∈ fields_allowed_before_approval ∧ approved = "pending")
      ∨ (k ∈ cpi_spi_fields ∧ setting.cpi_change_allowed = some true) := by
  obtain ⟨v, hv⟩ := (Obj.mem_keys_iff _ _).1 hk
  rw [filtered_fields_get] at hv
  by_cases hb : k ∈ body.props.keys
  · simp only [hb, if_true] at hv
    by_cases hc : setting.cpi_change_allowed = some true ∧ k ∈ cpi_spi_fields
    · exact Or.inr (Or.inr ⟨hc.2, hc.1⟩)
    · have hcw : (if setting.cpi_change_allowed = some true then cpi_write body k else none)
          = none := by
        by_cases h₁ : setting.cpi_change_allowed = some true
        · have h₂ : k ∉ cpi_spi_fields := fun h => hc ⟨h₁, h⟩
          simp [h₁, cpi_write, h₂]
        · simp [h₁]
      rw [hcw] at hv
      simp only [Option.none_or, approval_write] at hv
      split at hv
      · rename_i h
        rcases h with h | h
        · exact Or.inr (Or.inl h)
        · exact Or.inl h.2
      · simp at hv
  · simp [hb] at hv

/-- Claim C1. Every key of the patch that `modify_multiple` passes to the record
update is allowed for the current state: it is in `fields_allowed_anytime`, or in
`fields_allowed_before_approval` with `approved = "pending"`, or in
`cpi_spi_fields` with `cpi_change_allowed` true, or a `media_fields` name taken
from the attachments. So a key in none of the four lists is never in the patch,
and no `fields_allowed_before_approval` key is in it unless the state is
pending. The detaching updates touch media fields of the attachments only. -/
theorem modify_multiple_patch_allowed (w : World) (u : User) (body : JsVal)
    (files : Option (Obj Attachment)) (st : Student) (sg : Setting)
    (hs : findStudent w.students u.username = some st) (hg : w.setting = some sg) :
    (∀ id data, Effect.update id data ∈ (modify_multiple w (some u) body files).1 →
      ∀ k ∈ Obj.keys data,
        (k ∈ fields_allowed_anytime
          ∨ (k ∈ fields_allowed_before_approval ∧ st.approved = "pending")
          ∨ (k ∈ cpi_spi_fields ∧ sg.cpi_change_allowed = some true)
          ∨ (k ∈ media_fields ∧ k ∈ Obj.keys (files.getD [])))
        ∧ (k ∈ fields_allowed_before_approval → st.approved = "pending")
        ∧ (k ∈ fields_allowed_anytime ∨ k ∈ fields_allowed_before_approval
            ∨ k ∈ cpi_spi_fields ∨ k ∈ media_fields))
    ∧ (∀ id f, Effect.detach id f ∈ (modify_multiple w (some u) body files).1 →
        f ∈ media_fields ∧ f ∈ Obj.keys (files.getD [])) := by
  by_cases hb : body.truthy = true ∧ body.typeof = "object"
  swap
  · have hnone : (modify_multiple w (some u) body files).1 = [] := by
      have : body.truthy = false ∨ ¬ body.typeof = "object" := by
        by_cases h₁ : body.truthy = true
        · exact Or.inr (fun h₂ => hb ⟨h₁, h₂⟩)
        · exact Or.inl (by simpa using h₁)
      simp [modify_multiple, this]
    simp [hnone]
  obtain ⟨hb, ht⟩ := hb
  rw [modify_multiple_reached w u body files st sg hb ht hs hg]
  have hdet : ∀ id f, Effect.detach id f ∈
      ((files.getD []).keys.filter (fun f => decide (f ∈ media_fields))).map
        (Effect.detach st.id) → f ∈ media_fields ∧ f ∈ Obj.keys (files.getD []) := by
    intro id f hmem
    obtain ⟨g, hg', he⟩ := List.mem_map.1 hmem
    injection he with _ hgf
    subst hgf
    simpa [and_comm] using hg'
  split
  · refine ⟨?_, ?_⟩
    · intro id data hmem
      rw [media_loop_effects] at hmem
      simp at hmem
    · intro id f hmem
      rw [media_loop_effects] at hmem
      exact hdet id f hmem
  · refine ⟨?_, ?_⟩
    · intro id data hmem k hk
      simp only [upload_loop_effects, List.mem_append, List.mem_map, List.mem_filterMap,
        List.mem_singleton, Option.map_eq_some', Effect.update.injEq, reduceCtorEq,
        and_false, exists_false, false_or, exists_const] at hmem
      obtain ⟨_, hdata⟩ := hmem
      subst hdata
      have hall : k ∈ fields_allowed_anytime
          ∨ (k ∈ fields_allowed_before_approval ∧ st.approved = "pending")
          ∨ (k ∈ cpi_spi_fields ∧ sg.cpi_change_allowed = some true)
          ∨ (k ∈ media_fields ∧ k ∈ Obj.keys (files.getD [])) := by
        rcases (Obj.mem_keys_spread _ _ k).1 hk with h | h
        · rcases filtered_fields_keys _ _ _ k h with h | h | h
          · exact Or.inl h
          · exact Or.inr (Or.inl h)
          · exact Or.inr (Or.inr (Or.inl h))
        · obtain ⟨v, hv⟩ := (Obj.mem_keys_iff _ _).1 h
          rw [upload_loop_get] at hv
          by_cases hm : k ∈ media_fields
          · refine Or.inr (Or.inr (Or.inr ⟨hm, ?_⟩))
            by_contra hn
            have := (Obj.not_mem_keys_iff _ _).1 hn
            simp [media_write, hm, this] at hv
          · simp [media_write, hm] at hv
      refine ⟨hall, ?_, ?_⟩
      · intro hbef
        rcases hall with h | h | h | h
        · exfalso
          revert hbef
          simp only [fields_allowed_anytime, List.mem_cons, List.mem_singleton,
            List.not_mem_nil, or_false] at h
          rcases h with h | h | h | h | h | h <;> subst h <;> decide
        · exact h.2
        · exfalso
          revert hbef
          have h := h.1
          simp only [cpi_spi_fields, List.mem_cons, List.mem_singleton,
            List.not_mem_nil, or_false] at h
          rcases h with h | h | h | h | h | h | h | h | h | h | h <;> subst h <;> decide
        · exfalso
          revert hbef
          have h := h.1
          simp only [media_fields, List.mem_cons, List.mem_singleton,
            List.not_mem_nil, or_false] at h
          rcases h with h | h | h | h | h | h | h | h | h | h <;> subst h <;> decide
      · rcases hall with h | h | h | h
        · exact Or.inl h
        · exact Or.inr (Or.inl h.1)
        · exact Or.inr (Or.inr (Or.inl h.1))
        · exact Or.inr (Or.inr (Or.inr h.1))
    · intro id f hmem
      simp only [upload_loop_effects, List.mem_append, List.mem_filterMap,
        List.mem_singleton, Option.map_eq_some', reduceCtorEq,
        and_false, exists_false, or_false, exists_const] at hmem
      exact hdet id f hmem

/-- Witness of `modify_multiple_patch_allowed`: the sample request reaches the
update with `samplePatch`, whose key `name` is allowed while pending. -/
theorem modify_multiple_patch_allowed_witness :
    Effect.update 1 samplePatch
        ∈ (modify_multiple sampleWorld (some sampleUser) sampleBody (some sampleFiles)).1
      ∧ (("name" ∈ fields_allowed_anytime
          ∨ ("name" ∈ fields_allowed_before_approval ∧ sampleStudent.approved = "pending")
          ∨ ("name" ∈ cpi_spi_fields ∧ sampleSetting.cpi_change_allowed = some true)
          ∨ ("name" ∈ media_fields ∧ "name" ∈ Obj.keys ((some sampleFiles).getD [])))
        ∧ ("name" ∈ fields_allowed_before_approval → sampleStudent.approved = "pending")
        ∧ ("name" ∈ fields_allowed_anytime ∨ "name" ∈ fields_allowed_before_approval
            ∨ "name" ∈ cpi_spi_fields ∨ "name" ∈ media_fields)) :=
  have hmem : Effect.update 1 samplePatch
      ∈ (modify_multiple sampleWorld (some sampleUser) sampleBody (some sampleFiles)).1 :=
    List.mem_cons_of_mem _ (List.mem_cons_of_mem _ (List.mem_cons_self _ _))
  ⟨hmem, (modify_multiple_patch_allowed sampleWorld sampleUser sampleBody (some sampleFiles)
    sampleStudent sampleSetting rfl rfl).1 1 samplePatch hmem "name" (by decide)⟩

/-! ## C2: an unreadable policy -/

/-- Claim C2, on the code. When the settings lookup returns nothing, a request
that passed the guards before it ends in an uncaught `TypeError` at
`setting["cpi_change_allowed"]`: no patch is applied and no record is
returned. -/
theorem modify_multiple_unreadable_policy (w : World) (u : User) (body : JsVal)
    (files : Option (Obj Attachment)) (st : Student)
    (hb : body.truthy = true) (ht : body.typeof = "object")
    (hs : findStudent w.students u.username = some st) (hg : w.setting = none) :
    modify_multiple w (some u) body files = ([], Response.typeError) := by
  simp [modify_multiple, hb, ht, hs, hg]

/-- Witness of `modify_multiple_unreadable_policy`: the sample request against a
world without settings. -/
theorem modify_multiple_unreadable_policy_witness :
    modify_multiple worldWithoutSetting (some sampleUser) sampleBody (some sampleFiles)
      = ([], Response.typeError) :=
  modify_multiple_unreadable_policy worldWithoutSetting sampleUser sampleBody
    (some sampleFiles) sampleStudent rfl rfl rfl rfl

/-! ## C3: the grade fields -/

theorem approval_write_cpi (approved : String) (body : JsVal) (k : String)
    (hk : k ∈ cpi_spi_fields) : approval_write approved body k = none := by
  have h₁ : k ∉ fields_allowed_before_approval := by
    simp only [cpi_spi_fields, List.mem_cons, List.mem_singleton, List.not_mem_nil,
      or_false] at hk
    rcases hk with h | h | h | h | h | h | h | h | h | h | h <;> subst h <;> decide
  have h₂ : k ∉ fields_allowed_anytime := by
    simp only [cpi_spi_fields, List.mem_cons, List.mem_singleton, List.not_mem_nil,
      or_false] at hk
    rcases hk with h | h | h | h | h | h | h | h | h | h | h <;> subst h <;> decide
  simp [approval_write, h₁, h₂]

theorem isNaN_of_isNumeric (v : JsVal) (h : v.isNumeric = true) : v.isNaN = false := by
  cases v with
  | num n => cases n <;> simp_all [JsVal.isNumeric, JsVal.isNaN, JsVal.toNumber, JsNum.isNaN]
  | str s =>
    simp only [JsVal.isNumeric, Bool.and_eq_true, Bool.not_eq_true'] at h
    simpa [JsVal.isNaN, JsVal.toNumber] using h.2
  | undefined => simp [JsVal.isNumeric] at h
  | null => simp [JsVal.isNumeric] at h
  | bool b => simp [JsVal.isNumeric] at h
  | obj ps p => simp [JsVal.isNumeric] at h

/-- The value that `fields_to_modify` holds for a grade field. -/
theorem filtered_fields_get_cpi (approved : String) (setting : Setting) (body : JsVal)
    (k : String) (hk : k ∈ cpi_spi_fields) :
    Obj.get (filtered_fields approved setting body) k
      = if setting.cpi_change_allowed = some true ∧ k ∈ body.props.keys
            ∧ (body.getProp k).truthy = true ∧ (body.getProp k).isNaN = false then
          some (body.getProp k)
        else none := by
  rw [filtered_fields_get, approval_write_cpi approved body k hk]
  by_cases h₁ : k ∈ body.props.keys
  · by_cases h₂ : setting.cpi_change_allowed = some true
    · by_cases h₃ : (body.getProp k).truthy = true ∧ (body.getProp k).isNaN = false
      · simp [h₁, h₂, h₃, cpi_write, hk]
      · have h₄ : ¬ (k ∈ cpi_spi_fields ∧ (body.getProp k).truthy = true
            ∧ (body.getProp k).isNaN = false) := fun h => h₃ h.2
        have h₅ : ¬ (setting.cpi_change_allowed = some true ∧ k ∈ body.props.keys
            ∧ (body.getProp k).truthy = true ∧ (body.getProp k).isNaN = false) :=
          fun h => h₃ h.2.2
        rw [if_neg h₅]
        simp only [h₁, h₂, if_true, cpi_write, h₄, if_false]
        rfl
    · simp [h₁, h₂]
  · simp [h₁]

/-- Claim C3 fails as stated. With `cpi_change_allowed` true and the body
`{ cpi: 0 }`, the value of `cpi` is numeric and yet `cpi` is not in the
filtered field map. -/
theorem cpi_zero_is_dropped :
    ¬ (Obj.get (filtered_fields "pending" sampleSetting zeroCpiBody) "cpi"
          = some (zeroCpiBody.getProp "cpi")
        ↔ (zeroCpiBody.getProp "cpi").isNumeric = true) := by
  intro h
  have hnum : (zeroCpiBody.getProp "cpi").isNumeric = true := rfl
  have hget := h.2 hnum
  rw [filtered_fields_get_cpi _ _ _ _ (by decide)] at hget
  have hfalsy : (zeroCpiBody.getProp "cpi").truthy = false := by
    simp [zeroCpiBody, JsVal.getProp, JsVal.props, Obj.get, JsVal.truthy]
  simp [hfalsy] at hget

/-- Claim C3, amended. For a key of `cpi_spi_fields`: unless `cpi_change_allowed`
is true the key is not in the filtered field map; when it is true, a key
present in the body with a numeric and truthy value is in the map with that
value; a key is in the map only with the body's value, and only if that value
is truthy and `isNaN` of it is false, so a falsy value (the number 0 included)
never gets in. Each key is judged by its own value. -/
theorem cpi_fields_filter (approved : String) (setting : Setting) (body : JsVal)
    (k : String) (hk : k ∈ cpi_spi_fields) :
    (setting.cpi_change_allowed ≠ some true →
        Obj.get (filtered_fields approved setting body) k = none)
      ∧ (setting.cpi_change_allowed = some true → k ∈ body.props.keys →
          (body.getProp k).isNumeric = true → (body.getProp k).truthy = true →
          Obj.get (filtered_fields approved setting body) k = some (body.getProp k))
      ∧ (∀ v, Obj.get (filtered_fields approved setting body) k = some v →
          v = body.getProp k ∧ k ∈ body.props.keys ∧ v.truthy = true ∧ v.isNaN = false)
      ∧ ((body.getProp k).truthy = false →
          Obj.get (filtered_fields approved setting body) k = none) := by
  rw [filtered_fields_get_cpi approved setting body k hk]
  refine ⟨?_, ?_, ?_, ?_⟩
  · intro h
    simp [h]
  · intro h₁ h₂ h₃ h₄
    simp [h₁, h₂, h₄, isNaN_of_isNumeric _ h₃]
  · intro v hv
    split at hv
    · rename_i h
      have hv' : body.getProp k = v := by simpa using hv
      subst hv'
      exact ⟨rfl, h.2.1, h.2.2.1, h.2.2.2⟩
    · simp at hv
  · intro h
    simp [h]

/-- Witness of `cpi_fields_filter`: with the change allowed, `cpi: 8.5` of
`gradesBody` is numeric and truthy and gets into the map. -/
theorem cpi_fields_filter_witness :
    "cpi" ∈ cpi_spi_fields ∧ sampleSetting.cpi_change_allowed = some true
      ∧ "cpi" ∈ gradesBody.props.keys
      ∧ (gradesBody.getProp "cpi").isNumeric = true
      ∧ (gradesBody.getProp "cpi").truthy = true
      ∧ Obj.get (filtered_fields "approved" sampleSetting gradesBody) "cpi"
          = some (gradesBody.getProp "cpi") :=
  have hnum : (gradesBody.getProp "cpi").isNumeric = true := rfl
  have htruthy : (gradesBody.getProp "cpi").truthy = true := by
    simp [gradesBody, JsVal.getProp, JsVal.props, Obj.get, JsVal.truthy]
  ⟨by decide, rfl, by decide, hnum, htruthy,
    (cpi_fields_filter "approved" sampleSetting gradesBody "cpi" (by decide)).2.1
      rfl (by decide) hnum htruthy⟩

/-! ## C4: allowed fields keep the body's value -/

theorem cpi_write_of_not_mem (body : JsVal) (k : String) (hk : k ∉ cpi_spi_fields) :
    cpi_write body k = none := by
  simp [cpi_write, hk]

theorem not_cpi_of_anytime (k : String) (hk : k ∈ fields_allowed_anytime) :
    k ∉ cpi_spi_fields ∧ k ∉ fields_allowed_before_approval := by
  simp only [fields_allowed_anytime, List.mem_cons, List.mem_singleton, List.not_mem_nil,
    or_false] at hk
  rcases hk with h | h | h | h | h | h <;> subst h <;> decide

theorem not_cpi_of_before (k : String) (hk : k ∈ fields_allowed_before_approval) :
    k ∉ cpi_spi_fields := by
  simp only [fields_allowed_before_approval, List.mem_cons, List.mem_singleton,
    List.not_mem_nil, or_false] at hk
  rcases hk with h | h | h | h | h | h | h | h | h | h | h | h <;> subst h <;> decide

/-- The filtered field map keeps the body's value of an allowed field. -/
theorem filtered_fields_get_allowed (approved : String) (setting : Setting)
    (body : JsVal) (k : String) (hk : k ∈ body.props.keys)
    (hallowed : k ∈ fields_allowed_anytime
      ∨ (approved = "pending" ∧ k ∈ fields_allowed_before_approval)) :
    Obj.get (filtered_fields approved setting body) k = some (body.getProp k) := by
  rw [filtered_fields_get]
  have hc : k ∉ cpi_spi_fields := by
    rcases hallowed with h | h
    · exact (not_cpi_of_anytime k h).1
    · exact not_cpi_of_before k h.2
  have ha : approval_write approved body k = some (body.getProp k) := by
    rcases hallowed with h | h
    · simp [approval_write, h, (not_cpi_of_anytime k h).2]
    · simp [approval_write, h.1, h.2]
  rw [cpi_write_of_not_mem body k hc, ha]
  simp [hk]

/-- Claim C4. With a readable policy, a key of the body that is in
`fields_allowed_anytime`, or in `fields_allowed_before_approval` while
`approved` is pending, is in the filtered field map with exactly the body's
value; the request then ends in the record update, and the patch holds the
body's value for the key unless an attachment of that name replaces it. -/
theorem modify_multiple_keeps_allowed (w : World) (u : User) (body : JsVal)
    (files : Option (Obj Attachment)) (st : Student) (sg : Setting)
    (hb : body.truthy = true) (ht : body.typeof = "object")
    (hs : findStudent w.students u.username = some st) (hg : w.setting = some sg)
    (k : String) (hk : k ∈ body.props.keys)
    (hallowed : k ∈ fields_allowed_anytime
      ∨ (st.approved = "pending" ∧ k ∈ fields_allowed_before_approval)) :
    Obj.get (filtered_fields st.approved sg body) k = some (body.getProp k)
      ∧ ∃ data, (modify_multiple w (some u) body files).2 = Response.updated st.id data
          ∧ Effect.update st.id data ∈ (modify_multiple w (some u) body files).1
          ∧ (k ∉ Obj.keys (files.getD []) → Obj.get data k = some (body.getProp k)) := by
  have hget := filtered_fields_get_allowed st.approved sg body k hk hallowed
  refine ⟨hget, ?_⟩
  have hne : ¬ ((filtered_fields st.approved sg body).keys.length = 0
      ∧ (files = none ∨ (files.getD []).keys.length = 0)) := by
    intro h
    have hnil : filtered_fields st.approved sg body = [] :=
      (Obj.keys_eq_nil _).1 (List.length_eq_zero.1 h.1)
    rw [hnil] at hget
    simp [Obj.get] at hget
  rw [modify_multiple_reached w u body files st sg hb ht hs hg, if_neg hne]
  refine ⟨_, rfl, by simp, ?_⟩
  intro hnot
  have hup : k ∉ Obj.keys
      (upload_loop w (media_loop st.id u.username (files.getD []))).uploadedFiles := by
    rw [Obj.not_mem_keys_iff, upload_loop_get]
    have := (Obj.not_mem_keys_iff _ _).1 hnot
    simp [media_write, this]
  rw [Obj.get_spread_of_not_mem _ _ _ hup, hget]

/-- Witness of `modify_multiple_keeps_allowed`: the pending sample profile sent
`sampleBody` gets `name` changed to the body's value. -/
theorem modify_multiple_keeps_allowed_witness :
    Obj.get (filtered_fields sampleStudent.approved sampleSetting sampleBody) "name"
        = some (sampleBody.getProp "name")
      ∧ ∃ data, (modify_multiple sampleWorld (some sampleUser) sampleBody none).2
            = Response.updated sampleStudent.id data
          ∧ Effect.update sampleStudent.id data
            ∈ (modify_multiple sampleWorld (some sampleUser) sampleBody none).1
          ∧ ("name" ∉ Obj.keys ((none : Option (Obj Attachment)).getD []) →
              Obj.get data "name" = some (sampleBody.getProp "name")) :=
  modify_multiple_keeps_allowed sampleWorld sampleUser sampleBody none sampleStudent
    sampleSetting rfl rfl rfl rfl "name" (by decide) (Or.inr ⟨rfl, by decide⟩)

/-! ## C5 and C6: submit_for_approval -/

/-- A request that `submit_for_approval` hands to `create` passed every check,
and the record payload is the caller's with three properties overwritten. -/
theorem submit_for_approval_create (toDouble : ℚ → JsNum) (w : World) (user : Option User) (body : JsVal)
    (data : JsObj) (files : Obj Attachment)
    (h : Effect.create data files ∈ (submit_for_approval toDouble w user body).1) :
    ∃ u sg props p, user = some u ∧ u.username ≠ "" ∧ w.setting = some sg
      ∧ sg.registrations_allowed ≠ some false
      ∧ body.getProp "data" = JsVal.obj props p
      ∧ ((JsVal.obj props p).getProp "roll").looseEqStr toDouble u.username = true
      ∧ data = Obj.set (Obj.set (Obj.set props "approved" (JsVal.str "pending"))
          "placed_status" (JsVal.str "unplaced")) "user_relation"
          (JsVal.num (JsNum.fin (u.id : ℚ)))
      ∧ files = []
      ∧ submit_for_approval toDouble w user body = ([Effect.create data files],
          Response.created data files) := by
  unfold submit_for_approval at h ⊢
  cases user with
  | none => simp at h
  | some u =>
    by_cases hu : u.username = ""
    · simp [hu] at h
    · cases hg : w.setting with
      | none => simp [hu, hg] at h
      | some sg =>
        by_cases hr : sg.registrations_allowed = some false
        · simp [hu, hg, hr] at h
        · simp only [hu, hg, hr, if_false] at h ⊢
          cases body with
          | undefined => simp at h
          | null => simp at h
          | bool b =>
            simp only at h
            simp [JsVal.getProp, JsVal.props, Obj.get, JsVal.truthy] at h
          | num n =>
            simp only at h
            simp [JsVal.getProp, JsVal.props, Obj.get, JsVal.truthy] at h
          | str s =>
            simp only at h
            simp [JsVal.getProp, JsVal.props, Obj.get, JsVal.truthy] at h
          | obj bprops bp =>
            simp only at h ⊢
            by_cases hd : ((JsVal.obj bprops bp).getProp "data").truthy = false
            · simp [hd] at h
            · by_cases hl : (((JsVal.obj bprops bp).getProp "data").getProp
                  "roll").looseEqStr toDouble u.username = false
              · simp [hd, hl] at h
              · simp only [hd, hl, if_false] at h ⊢
                cases hdata : (JsVal.obj bprops bp).getProp "data" with
                | obj props p =>
                  rw [hdata] at h hl
                  simp only [Bool.true_eq_false, if_false, List.mem_singleton,
                    Effect.create.injEq] at h
                  obtain ⟨h₁, h₂⟩ := h
                  subst h₁ h₂
                  exact ⟨u, sg, props, p, rfl, hu, rfl, hr, rfl, by simpa using hl,
                    rfl, rfl, by simp⟩
                | undefined => rw [hdata] at h; simp at h
                | null => rw [hdata] at h; simp at h
                | bool b => rw [hdata] at h; simp at h
                | num n => rw [hdata] at h; simp at h
                | str s => rw [hdata] at h; simp at h

/-- Claim C5. Whenever `submit_for_approval` hands a request to `create`, the
record payload has `approved` set to `pending` and `placed_status` set to
`unplaced`, whatever the caller sent for them, has `user_relation` set to the
id of the authenticated user, and goes with an empty file map. -/
theorem submit_for_approval_forces_pending (toDouble : ℚ → JsNum) (w : World) (user : Option User)
    (body : JsVal) (data : JsObj) (files : Obj Attachment)
    (h : Effect.create data files ∈ (submit_for_approval toDouble w user body).1) :
    Obj.get data "approved" = some (JsVal.str "pending")
      ∧ Obj.get data "placed_status" = some (JsVal.str "unplaced")
      ∧ (∃ u, user = some u
          ∧ Obj.get data "user_relation" = some (JsVal.num (JsNum.fin (u.id : ℚ))))
      ∧ files = []
      ∧ (submit_for_approval toDouble w user body).2 = Response.created data files := by
  obtain ⟨u, sg, props, p, hu, _, _, _, _, _, hdata, hfiles, hres⟩ :=
    submit_for_approval_create toDouble w user body data files h
  subst hdata
  refine ⟨?_, ?_, ⟨u, hu, ?_⟩, hfiles, by rw [hres]⟩
  · rw [Obj.get_set_of_ne _ (by decide), Obj.get_set_of_ne _ (by decide),
      Obj.get_set_self]
  · rw [Obj.get_set_of_ne _ (by decide), Obj.get_set_self]
  · rw [Obj.get_set_self]

/-- Witness of `submit_for_approval_forces_pending`: `submitBody`, which asks for
`approved: "approved"` and `placed_status: "placed_tier1"`, reaches `create`
with `submitData`. -/
theorem submit_for_approval_forces_pending_witness :
    Effect.create submitData []
        ∈ (submit_for_approval JsNum.ieeeDouble sampleWorld (some sampleUser) submitBody).1
      ∧ Obj.get submitData "approved" = some (JsVal.str "pending")
      ∧ Obj.get submitData "placed_status" = some (JsVal.str "unplaced") :=
  have hmem : Effect.create submitData []
      ∈ (submit_for_approval JsNum.ieeeDouble sampleWorld (some sampleUser) submitBody).1 :=
    List.mem_cons_self _ _
  have hall := submit_for_approval_forces_pending JsNum.ieeeDouble sampleWorld (some sampleUser)
    submitBody submitData [] hmem
  ⟨hmem, hall.1, hall.2.1⟩

/-- Claim C6 fails as stated. When the settings lookup returns nothing, a
payload whose roll is not the user's is answered with an internal server
error, not with a bad request. -/
theorem foreign_roll_without_setting :
    (submit_for_approval JsNum.ieeeDouble worldWithoutSetting (some sampleUser) foreignRollBody).2
        = Response.internalServerError
          "Failed to get global settings for registrations allowed or not"
      ∧ ((foreignRollBody.getProp "data").getProp "roll").looseEqStr JsNum.ieeeDouble sampleUser.username
        = false
      ∧ ¬ ∃ id, (submit_for_approval JsNum.ieeeDouble worldWithoutSetting (some sampleUser)
          foreignRollBody).2 = Response.badRequest id := by
  refine ⟨rfl, by decide, ?_⟩
  rintro ⟨id, hid⟩
  have h : (submit_for_approval JsNum.ieeeDouble worldWithoutSetting (some sampleUser) foreignRollBody).2
      = Response.internalServerError
        "Failed to get global settings for registrations allowed or not" := rfl
  rw [h] at hid
  exact Response.noConfusion hid

/-- Claim C6, amended. `submit_for_approval` never calls `create`, and answers
bad request, when there is no authenticated username, when the readable
setting has `registrations_allowed` false, and, with a readable setting and a
body, when the payload's roll is not `==` to the username, as the runtime
decides that with its rounding, or the body has no data; with a username and
an unreadable setting it answers internal server error, again without calling
`create`. This holds for every rounding `toDouble`. -/
theorem submit_for_approval_rejects (toDouble : ℚ → JsNum) (w : World) (user : Option User) (body : JsVal) :
    ((∀ u, user = some u → u.username = "") →
        submit_for_approval toDouble w user body
          = ([], Response.badRequest "Bearer Token not provided or invalid"))
      ∧ (∀ sg, w.setting = some sg → sg.registrations_allowed = some false →
          (submit_for_approval toDouble w user body).1 = []
            ∧ ∃ id, (submit_for_approval toDouble w user body).2 = Response.badRequest id)
      ∧ (∀ u sg, user = some u → w.setting = some sg →
          body ≠ JsVal.undefined → body ≠ JsVal.null →
          ((body.getProp "data").truthy = false
            ∨ ((body.getProp "data").getProp "roll").looseEqStr toDouble u.username = false) →
          (submit_for_approval toDouble w user body).1 = []
            ∧ ∃ id, (submit_for_approval toDouble w user body).2 = Response.badRequest id)
      ∧ (∀ u, user = some u → u.username ≠ "" → w.setting = none →
          submit_for_approval toDouble w user body
            = ([], Response.internalServerError
                "Failed to get global settings for registrations allowed or not")) := by
  refine ⟨?_, ?_, ?_, ?_⟩
  · intro h
    cases user with
    | none => rfl
    | some u => simp [submit_for_approval, h u rfl]
  · intro sg hg hr
    cases user with
    | none => exact ⟨rfl, _, rfl⟩
    | some u =>
      by_cases hu : u.username = ""
      · simp [submit_for_approval, hu]
      · simp [submit_for_approval, hu, hg, hr]
  · intro u sg hu hg hb₁ hb₂ hbad
    subst hu
    by_cases hn : u.username = ""
    · simp [submit_for_approval, hn]
    · by_cases hr : sg.registrations_allowed = some false
      · simp [submit_for_approval, hn, hg, hr]
      · by_cases hd : (body.getProp "data").truthy = false
        · cases body <;> simp_all [submit_for_approval]
        · have hl : ((body.getProp "data").getProp "roll").looseEqStr toDouble u.username = false := by
            rcases hbad with h | h
            · exact absurd h hd
            · exact h
          cases body <;> simp_all [submit_for_approval]
  · intro u hu hn hg
    subst hu
    simp [submit_for_approval, hn, hg]

/-- Witness of `submit_for_approval_rejects`: closed registrations turn the
otherwise valid `submitBody` down with a bad request and without `create`. -/
theorem submit_for_approval_rejects_witness :
    closedWorld.setting
        = some { registrations_allowed := some false, cpi_change_allowed := some true }
      ∧ (submit_for_approval JsNum.ieeeDouble closedWorld (some sampleUser) submitBody).1 = []
      ∧ ∃ id, (submit_for_approval JsNum.ieeeDouble closedWorld (some sampleUser) submitBody).2
          = Response.badRequest id :=
  ⟨rfl, (submit_for_approval_rejects JsNum.ieeeDouble closedWorld (some sampleUser) submitBody).2.1
    { registrations_allowed := some false, cpi_change_allowed := some true } rfl rfl⟩

/-! ## C7: detach, then store, and the name of the résumé -/

/-- The upload calls made after the loop over `files`: one for each media
field of the attachments, with the file kept for it. -/
theorem mem_uploads_iff (id : Nat) (roll : String) (files : Obj Attachment) (e : Effect) :
    e ∈ (media_loop id roll files).files_to_upload.keys.filterMap
          (fun key => (Obj.get (media_loop id roll files).files_to_upload key).map
            (Effect.upload key))
      ↔ ∃ f file, media_write roll files f = some file
          ∧ e = Effect.upload ("files." ++ f) file := by
  rw [List.mem_filterMap]
  constructor
  · rintro ⟨key, hkey, he⟩
    obtain ⟨f, hf, _, _⟩ := media_loop_keys id roll files key hkey
    subst hf
    rw [media_loop_get] at he
    cases hw : media_write roll files f with
    | none => simp [hw] at he
    | some file =>
      rw [hw] at he
      exact ⟨f, file, hw, by simpa using he.symm⟩
  · rintro ⟨f, file, hw, he⟩
    refine ⟨"files." ++ f, ?_, ?_⟩
    · rw [Obj.mem_keys_iff]
      exact ⟨file, by rw [media_loop_get, hw]⟩
    · rw [media_loop_get, hw, he]
      rfl

/-- The order of the effects of `modify_multiple`. For every media field `f` of
the attachments, the update that sets `f` to null is issued before the upload
call for `f` and no detaching update comes after that call; the attachment
handed to the upload service for `f` is the one of the request after the
renaming, which gives one file under `resume` the name `<roll>.pdf` and
leaves the attachment of every other field as it was. -/
theorem modify_multiple_detach_before_upload (w : World) (u : User) (body : JsVal)
    (files : Obj Attachment) (st : Student) (sg : Setting)
    (hb : body.truthy = true) (ht : body.typeof = "object")
    (hs : findStudent w.students u.username = some st) (hg : w.setting = some sg)
    (f : String) (file : Attachment) (hf : f ∈ media_fields)
    (hfile : Obj.get files f = some file) :
    (∃ pre post, (modify_multiple w (some u) body (some files)).1
          = pre ++ Effect.upload ("files." ++ f) (renamed u.username f file) :: post
        ∧ Effect.detach st.id f ∈ pre
        ∧ ∀ e ∈ post, ∀ id g, e ≠ Effect.detach id g)
      ∧ (∀ file', Effect.upload ("files." ++ f) file'
            ∈ (modify_multiple w (some u) body (some files)).1 →
          file' = renamed u.username f file)
      ∧ (f = "resume" → ∀ part, file = Attachment.one part →
          renamed u.username f file
            = Attachment.one { part with name := u.username ++ ".pdf" })
      ∧ (f ≠ "resume" → renamed u.username f file = file) := by
  have hkeys : f ∈ Obj.keys files := (Obj.mem_keys_iff files f).2 ⟨file, hfile⟩
  have hne : ¬ ((filtered_fields st.approved sg body).keys.length = 0
      ∧ ((some files : Option (Obj Attachment)) = none
        ∨ (((some files : Option (Obj Attachment))).getD []).keys.length = 0)) := by
    rintro ⟨_, h | h⟩
    · simp at h
    · have : Obj.keys files = [] := List.length_eq_zero.1 (by simpa using h)
      rw [this] at hkeys
      simp at hkeys
  have hw : media_write u.username files f = some (renamed u.username f file) := by
    simp [media_write, hf, hfile]
  rw [modify_multiple_reached w u body (some files) st sg hb ht hs hg, if_neg hne]
  simp only [Option.getD_some, upload_loop_effects]
  refine ⟨?_, ?_, ?_, ?_⟩
  · have hmem := (mem_uploads_iff st.id u.username files
      (Effect.upload ("files." ++ f) (renamed u.username f file))).2 ⟨f, _, hw, rfl⟩
    obtain ⟨a, b, hab⟩ := List.append_of_mem hmem
    refine ⟨(files.keys.filter (fun f => decide (f ∈ media_fields))).map
        (Effect.detach st.id) ++ a,
      b ++ [Effect.update st.id (Obj.spread (filtered_fields st.approved sg body)
        (upload_loop w (media_loop st.id u.username files)).uploadedFiles)], ?_, ?_, ?_⟩
    · rw [hab]
      simp
    · apply List.mem_append_left
      exact List.mem_map_of_mem _ (by simp [hkeys, hf])
    · intro e he id g hd
      subst hd
      rcases List.mem_append.1 he with h | h
      · have hin : Effect.detach id g ∈ (media_loop st.id u.username files).files_to_upload.keys.filterMap
            (fun key => (Obj.get (media_loop st.id u.username files).files_to_upload key).map
              (Effect.upload key)) := by
          rw [hab]
          exact List.mem_append_right _ (List.mem_cons_of_mem _ h)
        obtain ⟨_, _, _, hbad⟩ := (mem_uploads_iff _ _ _ _).1 hin
        exact Effect.noConfusion hbad
      · simp at h
  · intro file' hmem
    rcases List.mem_append.1 hmem with h | h
    · rcases List.mem_append.1 h with h | h
      · obtain ⟨_, _, hbad⟩ := List.mem_map.1 h
        exact Effect.noConfusion hbad
      · obtain ⟨g, fl, hg', he⟩ := (mem_uploads_iff _ _ _ _).1 h
        injection he with hkey hfl
        have := files_key_injective hkey
        subst this
        rw [hw] at hg'
        rw [hfl]
        exact (Option.some.inj hg').symm
    · simp at h
  · intro h part hpart
    subst hpart
    simp [renamed, h, Attachment.setName]
  · intro h
    simp [renamed, h]

/-- Witness of `modify_multiple_detach_before_upload`: the résumé of the sample
request is detached first and then uploaded as `19cs11.pdf`. -/
theorem modify_multiple_detach_before_upload_witness :
    (∃ pre post, (modify_multiple sampleWorld (some sampleUser) sampleBody
            (some sampleFiles)).1
          = pre ++ Effect.upload ("files." ++ "resume")
              (renamed sampleUser.username "resume"
                (Attachment.one { name := "cv.pdf", content := "%PDF" })) :: post
        ∧ Effect.detach sampleStudent.id "resume" ∈ pre
        ∧ ∀ e ∈ post, ∀ id g, e ≠ Effect.detach id g)
      ∧ renamed sampleUser.username "resume"
          (Attachment.one { name := "cv.pdf", content := "%PDF" })
        = Attachment.one { name := "19cs11.pdf", content := "%PDF" } :=
  have h := modify_multiple_detach_before_upload sampleWorld sampleUser sampleBody
    sampleFiles sampleStudent sampleSetting rfl rfl rfl rfl "resume"
    (Attachment.one { name := "cv.pdf", content := "%PDF" }) (by decide) rfl
  ⟨h.1, h.2.2.1 rfl _ rfl⟩

/-- Claim C7, on the code. With two files attached under `resume` the detaching
update still comes before the upload call, but the renaming sets `name` on the
array and not on the files: the files handed to the upload service keep the
names `cv.pdf` and `cv-old.pdf`, and none is named `19cs11.pdf`. -/
theorem resume_array_keeps_names :
    modify_multiple sampleWorld (some sampleUser) emptyBody (some twoResumes)
        = ([Effect.detach 1 "resume",
            Effect.upload "files.resume"
              (Attachment.many
                [{ name := "cv.pdf", content := "%PDF" },
                 { name := "cv-old.pdf", content := "%PDF" }]
                (some "19cs11.pdf")),
            Effect.update 1 [("resume", JsVal.str "cv.pdf")]],
          Response.updated 1 [("resume", JsVal.str "cv.pdf")])
      ∧ (Attachment.many
          [{ name := "cv.pdf", content := "%PDF" },
           { name := "cv-old.pdf", content := "%PDF" }]
          (some "19cs11.pdf")).parts.map (fun part => part.name)
        = ["cv.pdf", "cv-old.pdf"] :=
  ⟨rfl, rfl⟩

/-! ## Objects without repeated keys -/

theorem Obj.mem_keys_set {α : Type} (o : Obj α) (k k' : String) (v : α) :
    k' ∈ Obj.keys (Obj.set o k v) ↔ k' = k ∨ k' ∈ Obj.keys o := by
  rw [Obj.mem_keys_iff, Obj.mem_keys_iff]
  by_cases h : k = k'
  · subst h
    simp [Obj.get_set_self]
  · rw [Obj.get_set_of_ne _ h]
    have h' : ¬ k' = k := fun e => h e.symm
    simp [h']

theorem Obj.keys_set_nodup {α : Type} (o : Obj α) (k : String) (v : α)
    (h : (Obj.keys o).Nodup) : (Obj.keys (Obj.set o k v)).Nodup := by
  induction o with
  | nil => simp [Obj.set, Obj.keys]
  | cons kv rest ih =>
    obtain ⟨k₀, v₀⟩ := kv
    have hcons : k₀ ∉ Obj.keys rest ∧ (Obj.keys rest).Nodup := by
      simpa [Obj.keys] using h
    by_cases h₀ : k₀ = k
    · simpa [Obj.set, h₀, Obj.keys] using h
    · have hs : Obj.set ((k₀, v₀) :: rest) k v = (k₀, v₀) :: Obj.set rest k v := by
        simp [Obj.set, h₀]
      rw [hs]
      have hnot : k₀ ∉ Obj.keys (Obj.set rest k v) := by
        rw [Obj.mem_keys_set]
        rintro (h₁ | h₁)
        · exact h₀ h₁
        · exact hcons.1 h₁
      have := ih hcons.2
      simp only [Obj.keys, List.map_cons, List.nodup_cons]
      exact ⟨hnot, this⟩

theorem Obj.keys_foldl_write_nodup {α β : Type} (κ : β → String) (h : β → Option α)
    (xs : List β) (acc : Obj α) (hacc : (Obj.keys acc).Nodup) :
    (Obj.keys (xs.foldl (fun acc x => Obj.write acc (κ x) (h x)) acc)).Nodup := by
  induction xs generalizing acc with
  | nil => simpa using hacc
  | cons x xs ih =>
    simp only [List.foldl_cons]
    apply ih
    cases h x with
    | none => simpa [Obj.write_none] using hacc
    | some v =>
      rw [Obj.write_some]
      exact Obj.keys_set_nodup _ _ _ hacc

theorem Obj.findSome_reverse {α : Type} (b : Obj α) (k : String)
    (hb : (Obj.keys b).Nodup) :
    b.reverse.findSome? (fun kv => if kv.1 = k then some kv.2 else none)
      = Obj.get b k := by
  induction b with
  | nil => rfl
  | cons kv rest ih =>
    obtain ⟨k₀, v₀⟩ := kv
    have hcons : k₀ ∉ Obj.keys rest ∧ (Obj.keys rest).Nodup := by
      simpa [Obj.keys] using hb
    rw [List.reverse_cons, List.findSome?_append, ih hcons.2]
    by_cases h₀ : k₀ = k
    · subst h₀
      have := (Obj.not_mem_keys_iff rest k₀).1 hcons.1
      simp [this, Obj.get]
    · simp [h₀, Obj.get]

theorem Obj.get_spread_nodup {α : Type} (a b : Obj α) (k : String)
    (hb : (Obj.keys b).Nodup) :
    Obj.get (Obj.spread a b) k = (Obj.get b k).or (Obj.get a k) := by
  rw [Obj.get_spread, Obj.findSome_reverse b k hb]

theorem upload_loop_nodup (w : World) (media : MediaState) :
    (Obj.keys (upload_loop w media).uploadedFiles).Nodup := by
  have h := (upload_fold_spec w media.files_to_upload media.files_to_upload.keys
    { effects := media.effects, uploadedFiles := [] }).2
  simp only [upload_loop]
  rw [h]
  exact Obj.keys_foldl_write_nodup _ _ _ _ (by simp [Obj.keys])

theorem files_key_not_media (f : String) : "files." ++ f ∉ media_fields := by
  intro h
  have hd : ∀ s : String, "files." ++ f = s → s.data.head? = some 'f' := by
    intro s hs
    subst hs
    rfl
  simp only [media_fields, List.mem_cons, List.mem_singleton, List.not_mem_nil,
    or_false] at h
  rcases h with h | h | h | h | h | h | h | h | h | h <;>
    · have := hd _ h
      revert this
      decide

/-! ## C8: the uploaded references -/

/-- Claim C8. For a media field `f` of the attachments, the record update is
issued with the filtered fields spread with the map of uploaded references.
That map binds the unprefixed name `f`, never `files.f`, to the first stored
artifact when the upload call for `f` returned at least one, and the patch
then holds that artifact under `f`; when the call returned nothing or an empty
list, `f` is absent from the map, whatever the calls for the other fields
returned. Every key of the map is a media field of the attachments. -/
theorem modify_multiple_uploaded_references (w : World) (u : User) (body : JsVal)
    (files : Obj Attachment) (st : Student) (sg : Setting)
    (hb : body.truthy = true) (ht : body.typeof = "object")
    (hs : findStudent w.students u.username = some st) (hg : w.setting = some sg)
    (f : String) (file : Attachment) (hf : f ∈ media_fields)
    (hfile : Obj.get files f = some file) :
    ∃ data uploadedFiles,
      uploadedFiles = (upload_loop w (media_loop st.id u.username files)).uploadedFiles
      ∧ data = Obj.spread (filtered_fields st.approved sg body) uploadedFiles
      ∧ (modify_multiple w (some u) body (some files)).2 = Response.updated st.id data
      ∧ Effect.update st.id data ∈ (modify_multiple w (some u) body (some files)).1
      ∧ (∀ first rest, w.upload (renamed u.username f file) = some (first :: rest) →
          Obj.get uploadedFiles f = some first ∧ Obj.get data f = some first)
      ∧ (w.upload (renamed u.username f file) = none
            ∨ w.upload (renamed u.username f file) = some [] →
          Obj.get uploadedFiles f = none)
      ∧ Obj.get uploadedFiles ("files." ++ f) = none
      ∧ ∀ k ∈ Obj.keys uploadedFiles, k ∈ media_fields ∧ k ∈ Obj.keys files := by
  have hkeys : f ∈ Obj.keys files := (Obj.mem_keys_iff files f).2 ⟨file, hfile⟩
  have hne : ¬ ((filtered_fields st.approved sg body).keys.length = 0
      ∧ ((some files : Option (Obj Attachment)) = none
        ∨ (((some files : Option (Obj Attachment))).getD []).keys.length = 0)) := by
    rintro ⟨_, h | h⟩
    · simp at h
    · have : Obj.keys files = [] := List.length_eq_zero.1 (by simpa using h)
      rw [this] at hkeys
      simp at hkeys
  have hw : media_write u.username files f = some (renamed u.username f file) := by
    simp [media_write, hf, hfile]
  have hmedia : ∀ k, k ∈ Obj.keys
      (upload_loop w (media_loop st.id u.username files)).uploadedFiles →
      k ∈ media_fields ∧ k ∈ Obj.keys files := by
    intro k hk
    obtain ⟨v, hv⟩ := (Obj.mem_keys_iff _ _).1 hk
    rw [upload_loop_get] at hv
    by_cases hm : k ∈ media_fields
    · refine ⟨hm, ?_⟩
      by_contra hn
      have := (Obj.not_mem_keys_iff _ _).1 hn
      simp [media_write, hm, this] at hv
    · simp [media_write, hm] at hv
  refine ⟨_, _, rfl, rfl, ?_, ?_, ?_, ?_, ?_, hmedia⟩
  · rw [modify_multiple_reached w u body (some files) st sg hb ht hs hg, if_neg hne]
    rfl
  · rw [modify_multiple_reached w u body (some files) st sg hb ht hs hg, if_neg hne]
    simp
  · intro first rest hup
    have hget : Obj.get (upload_loop w (media_loop st.id u.username files)).uploadedFiles f
        = some first := by
      rw [upload_loop_get, hw]
      simp [first_uploaded, hup]
    refine ⟨hget, ?_⟩
    rw [Obj.get_spread_nodup _ _ _ (upload_loop_nodup w _), hget]
    rfl
  · intro hup
    rw [upload_loop_get, hw]
    rcases hup with h | h <;> simp [first_uploaded, h]
  · rw [← Obj.not_mem_keys_iff]
    intro hk
    exact files_key_not_media f (hmedia _ hk).1

/-- Witness of `modify_multiple_uploaded_references`: when the upload service
stores nothing for the résumé, `resume` is absent from the uploaded references
and the record update is issued all the same. -/
theorem modify_multiple_uploaded_references_witness :
    ∃ data uploadedFiles,
      uploadedFiles = (upload_loop failingUploadWorld
        (media_loop sampleStudent.id sampleUser.username sampleFiles)).uploadedFiles
      ∧ (modify_multiple failingUploadWorld (some sampleUser) sampleBody
          (some sampleFiles)).2 = Response.updated sampleStudent.id data
      ∧ Effect.update sampleStudent.id data
          ∈ (modify_multiple failingUploadWorld (some sampleUser) sampleBody
            (some sampleFiles)).1
      ∧ Obj.get uploadedFiles "resume" = none :=
  have h := modify_multiple_uploaded_references failingUploadWorld sampleUser sampleBody
    sampleFiles sampleStudent sampleSetting rfl rfl rfl rfl "resume"
    (Attachment.one { name := "cv.pdf", content := "%PDF" }) (by decide) rfl
  Exists.elim h (fun data h₁ => Exists.elim h₁ (fun up h₂ =>
    ⟨data, up, h₂.1, h₂.2.2.1, h₂.2.2.2.1, h₂.2.2.2.2.2.1 (Or.inr rfl)⟩))

/-! ## C9: the no-op answer -/

/-- Claim C9. Past its guards `modify_multiple` answers 204 "No field modified"
exactly when the filtered field map is empty and the attachment map is absent
or empty, and then it issues no update and no upload; in every other case it
issues the record update, last, and returns the updated record. -/
theorem modify_multiple_noop_iff (w : World) (u : User) (body : JsVal)
    (files : Option (Obj Attachment)) (st : Student) (sg : Setting)
    (hb : body.truthy = true) (ht : body.typeof = "object")
    (hs : findStudent w.students u.username = some st) (hg : w.setting = some sg) :
    ((modify_multiple w (some u) body files).2 = Response.noContent "No field modified"
        ↔ (filtered_fields st.approved sg body = []
            ∧ (files = none ∨ files = some [])))
      ∧ ((filtered_fields st.approved sg body = [] ∧ (files = none ∨ files = some [])) →
          modify_multiple w (some u) body files
            = ([], Response.noContent "No field modified"))
      ∧ (¬ (filtered_fields st.approved sg body = [] ∧ (files = none ∨ files = some [])) →
          ∃ effects data,
            modify_multiple w (some u) body files
              = (effects ++ [Effect.update st.id data], Response.updated st.id data)) := by
  have hcond : ((filtered_fields st.approved sg body).keys.length = 0
        ∧ (files = none ∨ (files.getD []).keys.length = 0))
      ↔ (filtered_fields st.approved sg body = [] ∧ (files = none ∨ files = some [])) := by
    rw [List.length_eq_zero, Obj.keys_eq_nil]
    cases files with
    | none => simp
    | some fs => simp [List.length_eq_zero, Obj.keys_eq_nil]
  have hyes : (filtered_fields st.approved sg body = []
      ∧ (files = none ∨ files = some [])) →
      modify_multiple w (some u) body files
        = ([], Response.noContent "No field modified") := by
    intro h
    rw [modify_multiple_reached w u body files st sg hb ht hs hg, if_pos (hcond.2 h),
      media_loop_effects]
    rcases h.2 with h₂ | h₂ <;> subst h₂ <;> rfl
  have hno : ¬ (filtered_fields st.approved sg body = []
      ∧ (files = none ∨ files = some [])) →
      ∃ effects data, modify_multiple w (some u) body files
        = (effects ++ [Effect.update st.id data], Response.updated st.id data) := by
    intro h
    rw [modify_multiple_reached w u body files st sg hb ht hs hg,
      if_neg (fun hc => h (hcond.1 hc))]
    exact ⟨_, _, rfl⟩
  refine ⟨⟨?_, fun h => by rw [hyes h]⟩, hyes, hno⟩
  intro hresp
  by_contra h
  obtain ⟨effects, data, he⟩ := hno h
  rw [he] at hresp
  exact Response.noConfusion hresp

/-- Witness of `modify_multiple_noop_iff`: the empty body without attachments
is answered with the no-op response and without any effect. -/
theorem modify_multiple_noop_iff_witness :
    modify_multiple sampleWorld (some sampleUser) emptyBody none
      = ([], Response.noContent "No field modified") :=
  (modify_multiple_noop_iff sampleWorld sampleUser emptyBody none sampleStudent
    sampleSetting rfl rfl rfl rfl).2.1 ⟨rfl, Or.inl rfl⟩

/-! ## C10: the reports over all rolls -/

theorem arrayFromSet_fold (xs acc : List String) (hacc : acc.Nodup) :
    (xs.foldl (fun acc x => if x ∈ acc then acc else acc ++ [x]) acc).Nodup
      ∧ ∀ r, r ∈ xs.foldl (fun acc x => if x ∈ acc then acc else acc ++ [x]) acc
          ↔ r ∈ acc ∨ r ∈ xs := by
  induction xs generalizing acc with
  | nil => simpa using hacc
  | cons x xs ih =>
    simp only [List.foldl_cons]
    by_cases hx : x ∈ acc
    · simp only [hx, if_true]
      obtain ⟨h₁, h₂⟩ := ih acc hacc
      refine ⟨h₁, fun r => ?_⟩
      rw [h₂ r, List.mem_cons]
      constructor
      · rintro (h | h)
        · exact Or.inl h
        · exact Or.inr (Or.inr h)
      · rintro (h | h | h)
        · exact Or.inl h
        · exact Or.inl (h ▸ hx)
        · exact Or.inr h
    · simp only [hx, if_false]
      have hnd : (acc ++ [x]).Nodup := by
        rw [List.nodup_append]
        refine ⟨hacc, List.nodup_singleton x, ?_⟩
        intro a ha hb
        rw [List.mem_singleton] at hb
        exact hx (hb ▸ ha)
      obtain ⟨h₁, h₂⟩ := ih (acc ++ [x]) hnd
      refine ⟨h₁, fun r => ?_⟩
      rw [h₂ r, List.mem_append, List.mem_singleton, List.mem_cons]
      constructor
      · rintro ((h | h) | h)
        · exact Or.inl h
        · exact Or.inr (Or.inl h)
        · exact Or.inr (Or.inr h)
      · rintro (h | h | h)
        · exact Or.inl (Or.inl h)
        · exact Or.inl (Or.inr h)
        · exact Or.inr h

theorem arrayFromSet_nodup (xs : List String) : (arrayFromSet xs).Nodup :=
  (arrayFromSet_fold xs [] List.nodup_nil).1

theorem mem_arrayFromSet (xs : List String) (r : String) :
    r ∈ arrayFromSet xs ↔ r ∈ xs := by
  have := (arrayFromSet_fold xs [] List.nodup_nil).2 r
  simpa [arrayFromSet] using this

theorem selectedIn_iff (category : String) (app : Application) :
    selectedIn category app = true
      ↔ app.status = "selected" ∧ app.job.category = category := by
  simp only [selectedIn, decide_eq_true_eq]
  constructor
  · rintro ⟨h₁, h₂ | h₂⟩
    · exact ⟨h₁, h₂.1⟩
    · exact ⟨h₁, h₂⟩
  · rintro ⟨h₁, h₂⟩
    exact ⟨h₁, Or.inr h₂⟩

/-- The rolls of a report: those of the selected applications to a job of the
category, and those of the students with the flag. -/
theorem mem_report_rolls (w : World) (category : String) (flag : Student → Option Bool)
    (r : String) :
    r ∈ arrayFromSet
        ((w.applications.filter (selectedIn category)).map (fun app => app.student.roll)
          ++ (w.students.filter (fun s => decide (flag s = some true))).map
            (fun student => student.roll))
      ↔ (∃ app ∈ w.applications, app.status = "selected"
            ∧ app.job.category = category ∧ app.student.roll = r)
        ∨ (∃ s ∈ w.students, flag s = some true ∧ s.roll = r) := by
  rw [mem_arrayFromSet, List.mem_append, List.mem_map, List.mem_map]
  constructor
  · rintro (⟨app, happ, hr⟩ | ⟨s, hs, hr⟩)
    · rw [List.mem_filter, selectedIn_iff] at happ
      exact Or.inl ⟨app, happ.1, happ.2.1, happ.2.2, hr⟩
    · rw [List.mem_filter, decide_eq_true_eq] at hs
      exact Or.inr ⟨s, hs.1, hs.2, hr⟩
  · rintro (⟨app, happ, h₁, h₂, hr⟩ | ⟨s, hs, h₁, hr⟩)
    · exact Or.inl ⟨app, List.mem_filter.2 ⟨happ, (selectedIn_iff _ _).2 ⟨h₁, h₂⟩⟩, hr⟩
    · exact Or.inr ⟨s, List.mem_filter.2 ⟨hs, by simpa using h₁⟩, hr⟩

/-- Claim C10. Called without a roll, each of `get_intern_status_2`,
`get_intern_status_6` and `get_fte_status` answers, for every content of the
application and student stores, with a list that holds no roll twice and
holds a roll exactly when it is the roll of a selected application to a job of
the category or the roll of a student whose stored flag is true. -/
theorem status_reports_are_unions (w : World) :
    (∃ rolls, (get_intern_status_2 w none).2 = StatusResponse.rolls "internship" rolls
        ∧ rolls.Nodup
        ∧ ∀ r, r ∈ rolls ↔
          (∃ app ∈ w.applications, app.status = "selected"
              ∧ app.job.category = "Internship (2 Month)" ∧ app.student.roll = r)
            ∨ (∃ s ∈ w.students, s.internship_status_2 = some true ∧ s.roll = r))
      ∧ (∃ rolls, (get_intern_status_6 w none).2 = StatusResponse.rolls "internship" rolls
        ∧ rolls.Nodup
        ∧ ∀ r, r ∈ rolls ↔
          (∃ app ∈ w.applications, app.status = "selected"
              ∧ app.job.category = "Internship (6 Month)" ∧ app.student.roll = r)
            ∨ (∃ s ∈ w.students, s.internship_status_6 = some true ∧ s.roll = r))
      ∧ (∃ rolls, (get_fte_status w none).2 = StatusResponse.rolls "fte" rolls
        ∧ rolls.Nodup
        ∧ ∀ r, r ∈ rolls ↔
          (∃ app ∈ w.applications, app.status = "selected"
              ∧ app.job.category = "FTE" ∧ app.student.roll = r)
            ∨ (∃ s ∈ w.students, s.fte_status = some true ∧ s.roll = r)) := by
  refine ⟨⟨_, ?_, arrayFromSet_nodup _, fun r =>
      mem_report_rolls w "Internship (2 Month)" (fun s => s.internship_status_2) r⟩,
    ⟨_, ?_, arrayFromSet_nodup _, fun r =>
      mem_report_rolls w "Internship (6 Month)" (fun s => s.internship_status_6) r⟩,
    ⟨_, ?_, arrayFromSet_nodup _, fun r =>
      mem_report_rolls w "FTE" (fun s => s.fte_status) r⟩⟩
  · simp [get_intern_status_2]
  · simp [get_intern_status_6]
  · simp [get_fte_status]

/-! ## The sample requests, evaluated -/

/-- The pending sample profile sent `sampleBody` without attachments: `name`
and `resume_link` are changed, `unknown_field` is not in the patch. -/
theorem sample_update_without_files :
    modify_multiple sampleWorld (some sampleUser) sampleBody none
      = ([Effect.update 1 [("name", JsVal.str "X"), ("resume_link", JsVal.str "http://cv")]],
          Response.updated 1
            [("name", JsVal.str "X"), ("resume_link", JsVal.str "http://cv")]) := rfl

/-- The sample request with the résumé attached: detach, upload under the
name `19cs11.pdf`, then the record update with the stored reference. -/
theorem sample_update_with_resume :
    modify_multiple sampleWorld (some sampleUser) sampleBody (some sampleFiles)
      = ([Effect.detach 1 "resume",
            Effect.upload "files.resume"
              (Attachment.one { name := "19cs11.pdf", content := "%PDF" }),
            Effect.update 1 samplePatch],
          Response.updated 1 samplePatch) := rfl

/-- The body `{ cpi: 8.5, spi_1: "9.1", spi_2: "nine" }` on an approved
profile: the two numeric grades pass, the word does not. -/
theorem sample_grades :
    (filtered_fields "approved" sampleSetting gradesBody).keys = ["cpi", "spi_1"] := by
  have h₁ : (JsVal.str "9.1").isNaN = false := rfl
  have h₂ : (JsVal.str "nine").isNaN = true := rfl
  have h₃ : (JsVal.num (JsNum.fin (17 / 2))).isNaN = false := rfl
  have h₄ : (JsVal.num (JsNum.fin (17 / 2))).truthy = true := by simp [JsVal.truthy]
  have h₅ : (JsVal.str "9.1").truthy = true := by decide
  simp [filtered_fields, sampleSetting, gradesBody, JsVal.props, Obj.keys, approval_step,
    cpi_step, JsVal.getProp, Obj.get, Obj.set, fields_allowed_before_approval,
    fields_allowed_anytime, cpi_spi_fields, h₁, h₂, h₃, h₄, h₅]

/-- The sample submission reaches `create` with the forced values. -/
theorem sample_submission :
    submit_for_approval JsNum.ieeeDouble sampleWorld (some sampleUser) submitBody
      = ([Effect.create submitData []], Response.created submitData []) := rfl

/-! ## The lookups for one roll -/

theorem dimension_handler (d : Dimension) (hd : d ∈ dimensions) :
    d.handler = status_query d.category d.key d.flag := by
  simp only [dimensions, List.mem_cons, List.mem_singleton, List.not_mem_nil,
    or_false] at hd
  rcases hd with h | h | h <;> subst h <;> rfl

/-- The on-campus lookup finds an application exactly when the student has a
selected application to a job of the category. -/
theorem find_selected_eq_none (apps : List Application) (id : Nat) (category : String) :
    apps.find? (fun app => decide (app.student.id = id) && selectedIn category app) = none
      ↔ ∀ app ∈ apps, app.student.id = id → app.status = "selected" →
          app.job.category ≠ category := by
  rw [List.find?_eq_none]
  constructor
  · intro h app happ hid hsel hcat
    have := h app happ
    simp only [Bool.and_eq_true, decide_eq_true_eq, not_and] at this
    exact this hid ((selectedIn_iff category app).2 ⟨hsel, hcat⟩)
  · intro h app happ
    simp only [Bool.and_eq_true, decide_eq_true_eq, not_and]
    intro hid hsel
    obtain ⟨h₁, h₂⟩ := (selectedIn_iff category app).1 hsel
    exact h app happ hid h₁ h₂

/-- The lookup for one roll of a student whose flag is not set: the answer is
whether the on-campus lookup finds an application. -/
theorem status_query_lookup (category key : String) (flag : Student → Option Bool)
    (w : World) (r : String) (s : Student) (hr : r ≠ "")
    (hs : findStudent w.students r = some s) (hflag : flag s ≠ some true) :
    status_query category key flag w (some r)
      = ([StoreQuery.studentFindOne, StoreQuery.applicationFindOne],
          StatusResponse.flag key
            (w.applications.find? (fun app =>
              decide (app.student.id = s.id) && selectedIn category app)).isSome) := by
  have hroll : ¬ ((some r : Option String) = none ∨ some r = some "") := by
    simp [hr]
  simp only [status_query, hroll, if_false, Option.getD_some, hs, hflag]
  cases w.applications.find? (fun app =>
    decide (app.student.id = s.id) && selectedIn category app) <;> rfl

/-- The lookup for one roll of a student whose flag is set: one read of the
student store, whatever the applications are. -/
theorem status_query_flagged (category key : String) (flag : Student → Option Bool)
    (w : World) (r : String) (s : Student) (hr : r ≠ "")
    (hs : findStudent w.students r = some s) (hflag : flag s = some true) :
    status_query category key flag w (some r)
      = ([StoreQuery.studentFindOne], StatusResponse.flag key true) := by
  have hroll : ¬ ((some r : Option String) = none ∨ some r = some "") := by
    simp [hr]
  simp only [status_query, hroll, if_false, Option.getD_some, hs, hflag, if_true]

/-- The report over all rolls of a handler without tiers. -/
theorem status_query_report (category key : String) (flag : Student → Option Bool)
    (w : World) :
    ∃ rolls, status_query category key flag w none
        = ([StoreQuery.applicationFindMany, StoreQuery.studentFindMany],
            StatusResponse.rolls key rolls)
      ∧ ∀ r, r ∈ rolls ↔
          (∃ app ∈ w.applications, app.status = "selected"
              ∧ app.job.category = category ∧ app.student.roll = r)
            ∨ (∃ s ∈ w.students, flag s = some true ∧ s.roll = r) :=
  ⟨_, by simp [status_query], fun r => mem_report_rolls w category flag r⟩

/-! ## C11: which postings count -/

/-- Claim C11 fails as stated. A student without any flag whose only selected
application is to a job of category FTE with classification `Tier1`, which is
neither `none` nor the label of the dimension, gets `fte: true` from the
lookup and is in the report. -/
theorem tier1_counts_as_fte :
    tier1Job.classification ≠ "none" ∧ tier1Job.classification ≠ "FTE"
      ∧ sampleStudent.fte_status = none
      ∧ get_fte_status tier1World (some "19cs11")
        = ([StoreQuery.studentFindOne, StoreQuery.applicationFindOne],
            StatusResponse.flag "fte" true)
      ∧ get_fte_status tier1World none
        = ([StoreQuery.applicationFindMany, StoreQuery.studentFindMany],
            StatusResponse.rolls "fte" ["19cs11"]) := by
  refine ⟨by decide, by decide, rfl, by decide, by decide⟩

/-- Claim C11, amended. For the three dimensions without tiers a selected
application counts exactly when its job has the category of the dimension,
whatever the classification. A student whose flag is not set and whose
selected applications are all to jobs of another category gets false from the
lookup; a roll that no flagged student has and that no selected application to
a job of the category carries is absent from the report; and a selected
application to a job of the category gives true in the lookup and puts its
roll into the report. -/
theorem status_counts_category_only (w : World) (d : Dimension) (hd : d ∈ dimensions)
    (r : String) (s : Student) (hr : r ≠ "") (hs : findStudent w.students r = some s) :
    (d.flag s ≠ some true →
        (∀ app ∈ w.applications, app.student.id = s.id → app.status = "selected" →
          app.job.category ≠ d.category) →
        (d.handler w (some r)).2 = StatusResponse.flag d.key false)
      ∧ ((∀ s' ∈ w.students, s'.roll = r → d.flag s' ≠ some true) →
        (∀ app ∈ w.applications, app.student.roll = r → app.status = "selected" →
          app.job.category ≠ d.category) →
        ∃ rolls, (d.handler w none).2 = StatusResponse.rolls d.key rolls ∧ r ∉ rolls)
      ∧ (∀ app ∈ w.applications, app.student.id = s.id → app.status = "selected" →
          app.job.category = d.category →
          (d.handler w (some r)).2 = StatusResponse.flag d.key true
            ∧ ∃ rolls, (d.handler w none).2 = StatusResponse.rolls d.key rolls
              ∧ app.student.roll ∈ rolls) := by
  rw [dimension_handler d hd]
  obtain ⟨rolls, hrep, hmem⟩ := status_query_report d.category d.key d.flag w
  refine ⟨?_, ?_, ?_⟩
  · intro hflag hnone
    rw [status_query_lookup _ _ _ w r s hr hs hflag,
      (find_selected_eq_none _ _ _).2 hnone]
    rfl
  · intro hflags happs
    refine ⟨rolls, by rw [hrep], ?_⟩
    rw [hmem]
    rintro (⟨app, happ, h₁, h₂, h₃⟩ | ⟨s', hs', h₁, h₂⟩)
    · exact happs app happ h₃ h₁ h₂
    · exact hflags s' hs' h₂ h₁
  · intro app happ hid hsel hcat
    refine ⟨?_, rolls, by rw [hrep], (hmem _).2 (Or.inl ⟨app, happ, hsel, hcat, rfl⟩)⟩
    by_cases hflag : d.flag s = some true
    · rw [status_query_flagged _ _ _ w r s hr hs hflag]
    · rw [status_query_lookup _ _ _ w r s hr hs hflag]
      cases hfind : w.applications.find? (fun app =>
          decide (app.student.id = s.id) && selectedIn d.category app) with
      | some _ => rfl
      | none =>
        exact absurd hcat ((find_selected_eq_none _ _ _).1 hfind app happ hid hsel)

/-- Witness of `status_counts_category_only`: in `internWorld` the sample
student is selected for a two-month internship only, so the lookup of the
full-time offer answers false. -/
theorem status_counts_category_only_witness :
    fteDimension ∈ dimensions ∧ findStudent internWorld.students "19cs11" = some sampleStudent
      ∧ fteDimension.flag sampleStudent ≠ some true
      ∧ (fteDimension.handler internWorld (some "19cs11")).2
        = StatusResponse.flag fteDimension.key false :=
  have hflag : fteDimension.flag sampleStudent ≠ some true := by decide
  ⟨by simp [dimensions], rfl, hflag,
    (status_counts_category_only internWorld fteDimension (by simp [dimensions]) "19cs11"
      sampleStudent (by decide) rfl).1 hflag (by
        intro app happ _ _
        have : app = { status := "selected", student := sampleStudent, job := internJob } := by
          simpa [internWorld] using happ
        subst this
        decide)⟩

/-! ## C12: the placement report and the stored status -/

/-- Claim C12, on the code. A student whose `placed_status` is `placed_tier1`
and who has no application is placed for the lookup, which answers
`placed: true`, and is in none of the three arrays of the report. -/
theorem off_campus_placed_missing_from_report :
    offCampusStudent.placed_status ≠ "unplaced"
      ∧ get_placed_status offCampusWorld (some "19ec62")
        = ([StoreQuery.studentFindOne], StatusResponse.flag "placed" true)
      ∧ get_placed_status offCampusWorld none
        = ([StoreQuery.applicationFindMany, StoreQuery.studentFindMany],
            StatusResponse.placed [] [] []) := by
  refine ⟨by decide, by decide, by decide⟩

/-! ## C13: the report by tier -/

theorem selectedTiered_iff (app : Application) :
    selectedTiered app = true
      ↔ app.status = "selected" ∧ app.job.category = "FTE"
        ∧ app.job.classification ≠ "none" := by
  simp [selectedTiered]

/-- The loop over the applications, when every classification is one of the
three tier labels: nothing is thrown and each roll goes to the array of its
tier. -/
theorem push_rolls_tiers (apps : List Application) (t₁ t₂ t₃ : List String)
    (h : ∀ app ∈ apps, app.job.classification ∈ ["Tier1", "Tier2", "Tier3"]) :
    push_rolls apps [("placed_tier1", t₁), ("placed_tier2", t₂), ("placed_tier3", t₃)]
      = some
        [("placed_tier1", t₁ ++ (apps.filter
            (fun app => decide (app.job.classification = "Tier1"))).map
              (fun app => app.student.roll)),
         ("placed_tier2", t₂ ++ (apps.filter
            (fun app => decide (app.job.classification = "Tier2"))).map
              (fun app => app.student.roll)),
         ("placed_tier3", t₃ ++ (apps.filter
            (fun app => decide (app.job.classification = "Tier3"))).map
              (fun app => app.student.roll))] := by
  induction apps generalizing t₁ t₂ t₃ with
  | nil => simp [push_rolls]
  | cons app rest ih =>
    have hrest : ∀ a ∈ rest, a.job.classification ∈ ["Tier1", "Tier2", "Tier3"] :=
      fun a ha => h a (List.mem_cons_of_mem app ha)
    have happ := h app (List.mem_cons_self app rest)
    have hk₁ : "placed_" ++ toLowerCase "Tier1" = "placed_tier1" := by decide
    have hk₂ : "placed_" ++ toLowerCase "Tier2" = "placed_tier2" := by decide
    have hk₃ : "placed_" ++ toLowerCase "Tier3" = "placed_tier3" := by decide
    simp only [List.mem_cons, List.mem_singleton, List.not_mem_nil, or_false] at happ
    rcases happ with hc | hc | hc
    · have hstep : push_roll
            [("placed_tier1", t₁), ("placed_tier2", t₂), ("placed_tier3", t₃)] app
          = some [("placed_tier1", t₁ ++ [app.student.roll]), ("placed_tier2", t₂),
              ("placed_tier3", t₃)] := by
        simp [push_roll, hc, hk₁, Obj.get, Obj.set]
      simp only [push_rolls, hstep]
      rw [ih _ _ _ hrest]
      simp [List.filter_cons, hc]
    · have hstep : push_roll
            [("placed_tier1", t₁), ("placed_tier2", t₂), ("placed_tier3", t₃)] app
          = some [("placed_tier1", t₁), ("placed_tier2", t₂ ++ [app.student.roll]),
              ("placed_tier3", t₃)] := by
        simp [push_roll, hc, hk₂, Obj.get, Obj.set]
      simp only [push_rolls, hstep]
      rw [ih _ _ _ hrest]
      simp [List.filter_cons, hc]
    · have hstep : push_roll
            [("placed_tier1", t₁), ("placed_tier2", t₂), ("placed_tier3", t₃)] app
          = some [("placed_tier1", t₁), ("placed_tier2", t₂),
              ("placed_tier3", t₃ ++ [app.student.roll])] := by
        simp [push_roll, hc, hk₃, Obj.get, Obj.set]
      simp only [push_rolls, hstep]
      rw [ih _ _ _ hrest]
      simp [List.filter_cons, hc]

/-- The rolls of one tier of the report. -/
theorem mem_tier_rolls (w : World) (label r : String) (hl : label ≠ "none") :
    r ∈ arrayFromSet (((w.applications.filter selectedTiered).filter
          (fun app => decide (app.job.classification = label))).map
            (fun app => app.student.roll))
      ↔ ∃ app ∈ w.applications, app.status = "selected" ∧ app.job.category = "FTE"
          ∧ app.job.classification = label ∧ app.student.roll = r := by
  rw [mem_arrayFromSet, List.mem_map]
  constructor
  · rintro ⟨app, happ, hr⟩
    rw [List.mem_filter, List.mem_filter, selectedTiered_iff, decide_eq_true_eq] at happ
    exact ⟨app, happ.1.1, happ.1.2.1, happ.1.2.2.1, happ.2, hr⟩
  · rintro ⟨app, happ, h₁, h₂, h₃, hr⟩
    refine ⟨app, ?_, hr⟩
    rw [List.mem_filter, List.mem_filter, selectedTiered_iff, decide_eq_true_eq]
    exact ⟨⟨happ, h₁, h₂, by rw [h₃]; exact hl⟩, h₃⟩

/-- Claim C13. When every job of category FTE with a classification other than
`none` has classification `Tier1`, `Tier2` or `Tier3`, `get_placed_status`
without a roll produces the report without error, no array of it holds a roll
twice, and a roll is under `placed_tier1` (`placed_tier2`, `placed_tier3`)
exactly when a selected application to a job of category FTE with
classification `Tier1` (`Tier2`, `Tier3`) carries it; so an application puts
its roll under the key of its own classification only, and one to a job with
classification `none` under no key. -/
theorem placed_report_by_tier (w : World)
    (h : ∀ app ∈ w.applications, app.job.category = "FTE" →
      app.job.classification ≠ "none" →
      app.job.classification ∈ ["Tier1", "Tier2", "Tier3"]) :
    ∃ placed_tier1 placed_tier2 placed_tier3,
      get_placed_status w none
        = ([StoreQuery.applicationFindMany, StoreQuery.studentFindMany],
            StatusResponse.placed placed_tier1 placed_tier2 placed_tier3)
      ∧ placed_tier1.Nodup ∧ placed_tier2.Nodup ∧ placed_tier3.Nodup
      ∧ ∀ r,
        (r ∈ placed_tier1 ↔ ∃ app ∈ w.applications, app.status = "selected"
            ∧ app.job.category = "FTE" ∧ app.job.classification = "Tier1"
            ∧ app.student.roll = r)
        ∧ (r ∈ placed_tier2 ↔ ∃ app ∈ w.applications, app.status = "selected"
            ∧ app.job.category = "FTE" ∧ app.job.classification = "Tier2"
            ∧ app.student.roll = r)
        ∧ (r ∈ placed_tier3 ↔ ∃ app ∈ w.applications, app.status = "selected"
            ∧ app.job.category = "FTE" ∧ app.job.classification = "Tier3"
            ∧ app.student.roll = r) := by
  have hsel : ∀ app ∈ w.applications.filter selectedTiered,
      app.job.classification ∈ ["Tier1", "Tier2", "Tier3"] := by
    intro app happ
    rw [List.mem_filter, selectedTiered_iff] at happ
    exact h app happ.1 happ.2.2.1 happ.2.2.2
  have hpush := push_rolls_tiers (w.applications.filter selectedTiered) [] [] [] hsel
  refine ⟨_, _, _, ?_, arrayFromSet_nodup _, arrayFromSet_nodup _, arrayFromSet_nodup _,
    fun r => ⟨mem_tier_rolls w "Tier1" r (by decide), mem_tier_rolls w "Tier2" r (by decide),
      mem_tier_rolls w "Tier3" r (by decide)⟩⟩
  simp [get_placed_status, hpush, Obj.get]

/-- Witness of `placed_report_by_tier`: in `tier2World` every tiered job has one
of the three labels, and the report is produced. -/
theorem placed_report_by_tier_witness :
    ∃ placed_tier1 placed_tier2 placed_tier3,
      get_placed_status tier2World none
        = ([StoreQuery.applicationFindMany, StoreQuery.studentFindMany],
            StatusResponse.placed placed_tier1 placed_tier2 placed_tier3)
      ∧ placed_tier1.Nodup ∧ placed_tier2.Nodup ∧ placed_tier3.Nodup :=
  have h := placed_report_by_tier tier2World (by
    intro app happ
    simp only [tier2World, List.mem_cons, List.mem_singleton, List.not_mem_nil,
      or_false] at happ
    rcases happ with h | h <;> subst h <;> decide)
  Exists.elim h (fun t₁ h₁ => Exists.elim h₁ (fun t₂ h₂ => Exists.elim h₂ (fun t₃ h₃ =>
    ⟨t₁, t₂, t₃, h₃.1, h₃.2.1, h₃.2.2.1, h₃.2.2.2.1⟩)))

/-- The report of `tier2World`: the roll selected for the `Tier2` job is under
`placed_tier2`, the roll selected for the job without a tier under no key. -/
theorem sample_placed_report :
    get_placed_status tier2World none
      = ([StoreQuery.applicationFindMany, StoreQuery.studentFindMany],
          StatusResponse.placed [] ["19cs11"] []) := by
  decide

/-! ## C14: the lookup of a flagged student reads no application -/

/-- Claim C14. When the student found for a roll has `placed_status` other than
`unplaced`, `get_placed_status` answers `placed: true` after one read of the
student store; when the stored flag of one of the three other dimensions is
true, its handler answers true after one read of the student store. No
application query is issued, and the answer is the same whatever the
application store holds. -/
theorem flagged_lookup_skips_applications (w : World) (r : String) (s : Student)
    (hr : r ≠ "") (hs : findStudent w.students r = some s) :
    (s.placed_status ≠ "unplaced" →
        ∀ applications, get_placed_status { w with applications := applications } (some r)
          = ([StoreQuery.studentFindOne], StatusResponse.flag "placed" true))
      ∧ ∀ d ∈ dimensions, d.flag s = some true →
          ∀ applications, d.handler { w with applications := applications } (some r)
            = ([StoreQuery.studentFindOne], StatusResponse.flag d.key true) := by
  have hroll : ¬ ((some r : Option String) = none ∨ some r = some "") := by
    simp [hr]
  refine ⟨?_, ?_⟩
  · intro hflag applications
    simp only [get_placed_status, hroll, if_false, Option.getD_some, hs, hflag,
      ne_eq, not_false_eq_true, if_true]
  · intro d hd hflag applications
    rw [dimension_handler d hd]
    exact status_query_flagged d.category d.key d.flag
      { w with applications := applications } r s hr hs hflag

/-- Witness of `flagged_lookup_skips_applications`: `offCampusStudent` has
`placed_status` set, and the lookup answers true over the applications of
`tier2World` as over none. -/
theorem flagged_lookup_skips_applications_witness :
    findStudent offCampusWorld.students "19ec62" = some offCampusStudent
      ∧ offCampusStudent.placed_status ≠ "unplaced"
      ∧ get_placed_status { offCampusWorld with applications := tier2World.applications }
          (some "19ec62")
        = ([StoreQuery.studentFindOne], StatusResponse.flag "placed" true)
      ∧ get_placed_status { offCampusWorld with applications := [] } (some "19ec62")
        = ([StoreQuery.studentFindOne], StatusResponse.flag "placed" true) :=
  have h := (flagged_lookup_skips_applications offCampusWorld "19ec62" offCampusStudent
    (by decide) rfl).1 (by decide)
  ⟨rfl, by decide, h tier2World.applications, h []⟩

/-! ## C15: a flag that is not set does not hide a selection -/

/-- Claim C15. For a student found for a roll whose flag of the dimension is
not set, each of `get_intern_status_2`, `get_intern_status_6` and
`get_fte_status` answers true when the student has a selected application to a
job of the category of the dimension with classification `none`, and false
when the student has no selected application to any job of that category. -/
theorem unflagged_lookup_follows_selection (w : World) (d : Dimension)
    (hd : d ∈ dimensions) (r : String) (s : Student) (hr : r ≠ "")
    (hs : findStudent w.students r = some s) (hflag : d.flag s ≠ some true) :
    ((∃ app ∈ w.applications, app.student.id = s.id ∧ app.status = "selected"
          ∧ app.job.category = d.category ∧ app.job.classification = "none") →
        d.handler w (some r)
          = ([StoreQuery.studentFindOne, StoreQuery.applicationFindOne],
              StatusResponse.flag d.key true))
      ∧ ((∀ app ∈ w.applications, app.student.id = s.id → app.status = "selected" →
          app.job.category ≠ d.category) →
        d.handler w (some r)
          = ([StoreQuery.studentFindOne, StoreQuery.applicationFindOne],
              StatusResponse.flag d.key false)) := by
  rw [dimension_handler d hd, status_query_lookup _ _ _ w r s hr hs hflag]
  refine ⟨?_, ?_⟩
  · rintro ⟨app, happ, hid, hsel, hcat, _⟩
    cases hfind : w.applications.find? (fun app =>
        decide (app.student.id = s.id) && selectedIn d.category app) with
    | some _ => rfl
    | none =>
      exact absurd hcat ((find_selected_eq_none _ _ _).1 hfind app happ hid hsel)
  · intro hnone
    rw [(find_selected_eq_none _ _ _).2 hnone]
    rfl

/-- Witness of `unflagged_lookup_follows_selection`: `19cs11` has no flag set and
one selected application to a two-month internship with classification `none`,
so `get_intern_status_2` answers `internship: true`. -/
theorem unflagged_lookup_follows_selection_witness :
    internDimension2 ∈ dimensions
      ∧ findStudent internWorld.students "19cs11" = some sampleStudent
      ∧ internDimension2.flag sampleStudent ≠ some true
      ∧ get_intern_status_2 internWorld (some "19cs11")
        = ([StoreQuery.studentFindOne, StoreQuery.applicationFindOne],
            StatusResponse.flag "internship" true) :=
  have hflag : internDimension2.flag sampleStudent ≠ some true := by decide
  ⟨by simp [dimensions], rfl, hflag,
    (unflagged_lookup_follows_selection internWorld internDimension2 (by simp [dimensions])
      "19cs11" sampleStudent (by decide) rfl hflag).1
      ⟨{ status := "selected", student := sampleStudent, job := internJob },
        by simp [internWorld], rfl, rfl, rfl, rfl⟩⟩

/-- The scenario of `19cs11`: `internship: true` from `get_intern_status_2` and
`fte: false` from `get_fte_status`. -/
theorem sample_intern_not_fte :
    (get_intern_status_2 internWorld (some "19cs11")).2
        = StatusResponse.flag "internship" true
      ∧ (get_fte_status internWorld (some "19cs11")).2 = StatusResponse.flag "fte" false := by
  decide

/-! ## C16: set_placed_status -/

/-- Claim C16. `set_placed_status` issues a write exactly when `roll` and
`placed_status` are both given and `placed_status` is one of `placed_tier1`,
`placed_tier2`, `placed_tier3`, `unplaced`. Then it issues one write, on the
student with that roll, whose patch sets `placed_status` to the given value
and `placed_status_updated` to the current date together, and answers with
the value. Otherwise it issues nothing and answers bad request. -/
theorem set_placed_status_writes (query : Option PlacedQuery) (now : String) :
    ((set_placed_status query now).1 ≠ [] ↔
        ∃ roll placed_status, query = some ⟨some roll, some placed_status⟩ ∧ roll ≠ ""
          ∧ placed_status ∈ ["placed_tier1", "placed_tier2", "placed_tier3", "unplaced"])
      ∧ (∀ roll placed_status, query = some ⟨some roll, some placed_status⟩ → roll ≠ "" →
          placed_status ∈ ["placed_tier1", "placed_tier2", "placed_tier3", "unplaced"] →
          set_placed_status query now
            = ([Effect.updateByRoll roll
                  [("placed_status", JsVal.str placed_status),
                   ("placed_status_updated", JsVal.obj [] now)]],
                Response.placedStatus placed_status))
      ∧ ((¬ ∃ roll placed_status, query = some ⟨some roll, some placed_status⟩ ∧ roll ≠ ""
            ∧ placed_status ∈ ["placed_tier1", "placed_tier2", "placed_tier3", "unplaced"]) →
          (set_placed_status query now).1 = []
            ∧ ∃ id, (set_placed_status query now).2 = Response.badRequest id) := by
  have hyes : ∀ roll placed_status, query = some ⟨some roll, some placed_status⟩ →
      roll ≠ "" →
      placed_status ∈ ["placed_tier1", "placed_tier2", "placed_tier3", "unplaced"] →
      set_placed_status query now
        = ([Effect.updateByRoll roll
              [("placed_status", JsVal.str placed_status),
               ("placed_status_updated", JsVal.obj [] now)]],
            Response.placedStatus placed_status) := by
    intro roll placed_status hq hr hp
    subst hq
    have hne : placed_status ≠ "" := by
      intro h
      subst h
      revert hp
      decide
    simp [set_placed_status, hr, hne, hp]
  have hno : (¬ ∃ roll placed_status, query = some ⟨some roll, some placed_status⟩
        ∧ roll ≠ ""
        ∧ placed_status ∈ ["placed_tier1", "placed_tier2", "placed_tier3", "unplaced"]) →
      (set_placed_status query now).1 = []
        ∧ ∃ id, (set_placed_status query now).2 = Response.badRequest id := by
    intro h
    cases query with
    | none => exact ⟨rfl, _, rfl⟩
    | some q =>
      obtain ⟨qr, qp⟩ := q
      by_cases hg : qr = none ∨ qr = some "" ∨ qp = none ∨ qp = some ""
      · have heq : set_placed_status (some ⟨qr, qp⟩) now
            = ([], Response.badRequest "Roll or placed_status not passed") := by
          simp only [set_placed_status, hg, if_true]
        rw [heq]
        exact ⟨rfl, _, rfl⟩
      · cases qr with
        | none => exact absurd (Or.inl rfl) hg
        | some roll =>
          cases qp with
          | none => exact absurd (Or.inr (Or.inr (Or.inl rfl))) hg
          | some placed_status =>
            have hr : roll ≠ "" := fun e => hg (Or.inr (Or.inl (by rw [e])))
            have hp : placed_status ∉
                ["placed_tier1", "placed_tier2", "placed_tier3", "unplaced"] :=
              fun hp => h ⟨roll, placed_status, rfl, hr, hp⟩
            have heq : set_placed_status (some ⟨some roll, some placed_status⟩) now
                = ([], Response.badRequest "Invalid placed_status") := by
              simp only [set_placed_status, hg, if_false, Option.getD_some, hp,
                not_false_eq_true, if_true]
            rw [heq]
            exact ⟨rfl, _, rfl⟩
  refine ⟨⟨?_, ?_⟩, hyes, hno⟩
  · intro hne
    by_contra h
    exact hne (hno h).1
  · rintro ⟨roll, placed_status, hq, hr, hp⟩
    rw [hyes roll placed_status hq hr hp]
    simp

/-- Witness of `set_placed_status_writes`: the request
`?roll=19cs11&placed_status=placed_tier2` stamps the value and the date in
one patch. -/
theorem set_placed_status_writes_witness :
    set_placed_status (some ⟨some "19cs11", some "placed_tier2"⟩) "2026-11-04"
      = ([Effect.updateByRoll "19cs11"
            [("placed_status", JsVal.str "placed_tier2"),
             ("placed_status_updated", JsVal.obj [] "2026-11-04")]],
          Response.placedStatus "placed_tier2") :=
  (set_placed_status_writes (some ⟨some "19cs11", some "placed_tier2"⟩) "2026-11-04").2.1
    "19cs11" "placed_tier2" rfl (by decide) (by decide)

/-! ## The rounding of a numeric username -/

theorem ieeeDouble_above_two_pow_53 :
    JsNum.ieeeDouble 9007199254740993 = JsNum.fin 9007199254740992 := by
  have hf : Rat.floor (9007199254740993 / 2) = 4503599627370496 := by
    show ⌊(9007199254740993 / 2 : ℚ)⌋ = 4503599627370496
    rw [Int.floor_eq_iff]
    norm_num
  unfold JsNum.ieeeDouble
  norm_num [Nat.log2, hf]

theorem mantissaValue_wide :
    mantissaValue "9007199254740993".toList = some 9007199254740993 := by
  have hd : digitsToNat 10 "9007199254740993".toList = some 9007199254740993 := by
    decide
  have hsp : List.span (fun c => c != '.') "9007199254740993".toList
      = ("9007199254740993".toList, []) := by decide
  unfold mantissaValue
  rw [hsp]
  simp only [hd, Option.map_some']
  norm_num

theorem unsignedDecimalValue_wide :
    unsignedDecimalValue "9007199254740993".toList = JsNum.fin 9007199254740993 := by
  have hsp : List.span (fun c => c != 'e' && c != 'E') "9007199254740993".toList
      = ("9007199254740993".toList, []) := by decide
  have hinf : "9007199254740993".toList ≠ "Infinity".toList := by decide
  unfold unsignedDecimalValue
  rw [if_neg hinf]
  simp only [hsp, mantissaValue_wide, exponentValue]
  norm_num

theorem StringToNumber_wide :
    StringToNumber "9007199254740993" = JsNum.fin 9007199254740993 := by
  have htrim : (("9007199254740993".toList.dropWhile isStrWhiteSpaceChar).reverse.dropWhile
      isStrWhiteSpaceChar).reverse = "9007199254740993".toList := by decide
  unfold StringToNumber
  simp only [htrim]
  exact unsignedDecimalValue_wide

theorem looseEqStr_num (n : JsNum) (toDouble : ℚ → JsNum) (s : String) :
    (JsVal.num n).looseEqStr toDouble s
      = JsNum.eq n ((StringToNumber s).round toDouble) := rfl

theorem JsNum.round_fin (toDouble : ℚ → JsNum) (q : ℚ) :
    (JsNum.fin q).round toDouble = toDouble q := rfl

theorem JsNum.eq_fin_self (q : ℚ) : JsNum.eq (JsNum.fin q) (JsNum.fin q) = true := by
  simp [JsNum.eq]

/-- The number `9007199254740992` is `==` to the string `"9007199254740993"`,
whose value rounds to that double. -/
theorem wide_roll_matches :
    (JsVal.num (JsNum.fin 9007199254740992)).looseEqStr JsNum.ieeeDouble
      "9007199254740993" = true := by
  rw [looseEqStr_num, StringToNumber_wide, JsNum.round_fin, ieeeDouble_above_two_pow_53]
  exact JsNum.eq_fin_self _

/-- The request of `wideUser` with `wideRollBody` passes the roll check and
reaches `create`. -/
theorem sample_wide_roll :
    submit_for_approval JsNum.ieeeDouble sampleWorld (some wideUser) wideRollBody
      = ([Effect.create
            [("roll", JsVal.num (JsNum.fin 9007199254740992)),
             ("approved", JsVal.str "pending"), ("placed_status", JsVal.str "unplaced"),
             ("user_relation", JsVal.num (JsNum.fin 9))] []],
          Response.created
            [("roll", JsVal.num (JsNum.fin 9007199254740992)),
             ("approved", JsVal.str "pending"), ("placed_status", JsVal.str "unplaced"),
             ("user_relation", JsVal.num (JsNum.fin 9))] []) := by
  have hroll : (wideRollBody.getProp "data").getProp "roll"
      = JsVal.num (JsNum.fin 9007199254740992) := rfl
  have huser : wideUser.username = "9007199254740993" := rfl
  have hmatch := wide_roll_matches
  simp [submit_for_approval, sampleWorld, sampleSetting, hroll, huser, hmatch,
    wideRollBody, wideUser, JsVal.getProp, JsVal.props, Obj.get, Obj.set, JsVal.truthy]

end TnpCell
